import Mathlib

/-!
Verification of the DXVK-Studio deployment and integrity-tracking engine.

This file gives a shallow embedding of the deployment engine of the
repository (src/electron/services/deployer.ts), of the PE-header
architecture classifier (src/electron/services/gog-scanner.ts,
`analyzeExecutable`), and of the data model they share
(src/electron/shared/types.ts), and proves the testable properties of
the specification against it.

Modelling conventions:
* A game directory is a finite-support map from filenames to file
  contents (`Dir`).  All paths handled by the deployer live inside one
  game directory (`join(gamePath, name)` in the source), so filenames
  are the relative names.
* File contents are either raw bytes or a parseable serialized manifest
  (`FileData`).  `JSON.parse`/`JSON.stringify` of a manifest is an
  external library pair; it is modelled by the `FileData.manifestData`
  constructor: contents that parse as a manifest are exactly the
  `manifestData` values, raw bytes are contents that fail to parse.
* SHA-256 (`createHash('sha256')` from node's crypto, external to the
  repository) is modelled by `hashData`, a deterministic function of the
  file content.
* The component catalog accessor `getEngineDlls` (engine-manager.ts) is
  an external read-only listing per the spec (§4.2); installs take the
  resulting payload — a list of (basename, content) pairs — as an
  argument.  `getEngineDlls` only returns names ending in ".dll"
  (`filter (f => f.endsWith('.dll'))`), with distinct basenames (they
  are entries of one directory); theorems about installs carry these
  facts as hypotheses.
* `new Date().toISOString()` is modelled by a `now : String` argument.
* A filesystem fault in the per-file install loop (a `copyFileSync` or
  `hashFile` throw) is modelled by the `failAt` argument of
  `installEngine`: `failAt = some i` makes the i-th file's copy step
  throw; `failAt = none` is the fault-free run.  The thrown error
  propagates out of `installEngine` (there is no catch in the source),
  leaving the directory as mutated so far.
-/

/-- Architecture enumeration from src/electron/shared/types.ts:
`'32' | '64' | 'unknown'`. -/
inductive Arch where
  | a32
  | a64
  | unknown
deriving DecidableEq, Repr

/-- Fork enumeration from src/electron/shared/types.ts:
`'official' | 'gplasync' | 'nvapi' | 'vkd3d'`. -/
inductive DxvkFork where
  | official
  | gplasync
  | nvapi
  | vkd3d
deriving DecidableEq, Repr

/-- Component family key of the manifest's `components` record:
`'dxvk' | 'vkd3d'`. -/
inductive Component where
  | dxvk
  | vkd3d
deriving DecidableEq, Repr

/-- Per-family record in `DeploymentManifest.components`:
`{ version: string, fork: DxvkFork }`. -/
structure ComponentInfo where
  version : String
  fork : DxvkFork
deriving DecidableEq, Repr

/-- The `components` object of a manifest: optional `dxvk` and `vkd3d`
keys (a field is `none` exactly when the key is absent). -/
structure Components where
  dxvk : Option ComponentInfo
  vkd3d : Option ComponentInfo
deriving DecidableEq, Repr

/-- `DeployedDll` from src/electron/shared/types.ts:
`{ name: string, hash: string, backupPath?: string }`. -/
structure DeployedDll where
  name : String
  hash : String
  backupPath : Option String
deriving DecidableEq, Repr

/-- `DeploymentManifest` from src/electron/shared/types.ts.  The
`components` field is optional in the interface (legacy manifests lack
it). -/
structure Manifest where
  gameId : String
  engineVersion : String
  engineFork : DxvkFork
  architecture : Arch
  installedAt : String
  dlls : List DeployedDll
  configPath : Option String
  components : Option Components
deriving DecidableEq, Repr

/-- Content of a file in a game directory: raw bytes, or a serialized
manifest (the contents that `JSON.parse` reads back as a manifest). -/
inductive FileData where
  | bytes (content : List Nat)
  | manifestData (m : Manifest)
deriving DecidableEq, Repr

/-- A game directory: a map from filename to file content; `none` means
the file does not exist. -/
def Dir : Type := String → Option FileData

/-- `writeFileSync` / `copyFileSync` onto a target name: creates or
overwrites the file. -/
def fwrite (d : Dir) (n : String) (c : FileData) : Dir :=
  fun m => if m = n then some c else d m

/-- `rmSync` of a single file. -/
def fremove (d : Dir) (n : String) : Dir :=
  fun m => if m = n then none else d m

/-- `renameSync src dst`: moves the content of `src` to `dst`
(overwriting `dst`).  The deployer only calls it when `src` exists. -/
def frename (d : Dir) (src dst : String) : Dir :=
  fun m => if m = dst then d src else if m = src then none else d m

/-- SHA-256 hex digest of a file content (`createHash('sha256')`,
external crypto primitive): modelled as a deterministic function of the
content. -/
def hashData : FileData → String
  | .bytes l => "sha256:" ++ toString l
  | .manifestData m => "sha256:" ++ toString (repr m)

/-- `hashFile(join(gamePath, n))`: hash the file as it is on disk. -/
def hashInDir (d : Dir) (n : String) : String :=
  hashData ((d n).getD (.bytes []))

/-- Manifest sidecar filename, from `getManifestPath`:
`dxvk_studio_manifest.json`. -/
def manifestName : String := "dxvk_studio_manifest.json"

/-- `readManifest`: `null` when the file is absent or fails to parse. -/
def readManifest (d : Dir) : Option Manifest :=
  match d manifestName with
  | none => none
  | some (.manifestData m) => some m
  | some (.bytes _) => none

/-- `writeManifest`: single full-file overwrite of the sidecar. -/
def writeManifest (d : Dir) (m : Manifest) : Dir :=
  fwrite d manifestName (.manifestData m)

/-- JS `toLowerCase` on a filename (ASCII). -/
def lowerName (s : String) : String := ⟨s.data.map Char.toLower⟩

/-- The VKD3D-owned filenames, the `vkd3dNames` list repeated in
`installEngine`, `uninstallEngine` and `checkIntegrity`:
`['d3d12.dll', 'd3d12core.dll']`. -/
def vkd3dNames : List String := ["d3d12.dll", "d3d12core.dll"]

/-- Name-ownership partition used by install/uninstall/check: a name is
a VKD3D name iff its lowercase form is in `vkd3dNames`; everything else
is assumed to be DXVK. -/
def isTargetName (comp : Component) (name : String) : Bool :=
  match comp with
  | .vkd3d => vkd3dNames.contains (lowerName name)
  | .dxvk => !(vkd3dNames.contains (lowerName name))

/-- Scoped ownership test of `uninstallEngine`/`checkIntegrity`: with no
component requested every manifest entry is in scope. -/
def isTargetOpt (comp : Option Component) (name : String) : Bool :=
  match comp with
  | none => true
  | some c => isTargetName c name

/-- `componentType` computed in `installEngine`:
`fork === 'vkd3d' ? 'vkd3d' : 'dxvk'`. -/
def componentTypeOf (fork : DxvkFork) : Component :=
  if fork = .vkd3d then .vkd3d else .dxvk

/-- Backup filename for an original filename, from `installEngine`:
`` `${dllName}.bak_dxvk_studio` ``. -/
def bakName (n : String) : String := n ++ ".bak_dxvk_studio"

/-- Key lookup in the `components` object. -/
def getComp (cs : Components) : Component → Option ComponentInfo
  | .dxvk => cs.dxvk
  | .vkd3d => cs.vkd3d

/-- Key assignment `manifest.components[componentType] = {version, fork}`. -/
def setComp (cs : Components) : Component → ComponentInfo → Components
  | .dxvk, i => { cs with dxvk := some i }
  | .vkd3d, i => { cs with vkd3d := some i }

/-- `delete manifest.components[component]`. -/
def eraseComp (cs : Components) : Component → Components
  | .dxvk => { cs with dxvk := none }
  | .vkd3d => { cs with vkd3d := none }

/-- `Object.keys(manifest.components).length === 0`. -/
def compsEmpty (cs : Components) : Bool :=
  cs.dxvk.isNone && cs.vkd3d.isNone

/-- The `isTracked` test of the install loop:
`manifest.dlls.some(d => d.name === dllName)`, against the manifest read
at the start of the call (`manifest.dlls` is reassigned only after the
loop). -/
def trackedIn (orig : List DeployedDll) (n : String) : Bool :=
  orig.any (fun e => e.name = n)

/-- Per-file loop of `installEngine` (deployer.ts lines 310-340).  For
each payload file (basename `n`, content `c`): if the target exists, is
not tracked, and no file with the backup name exists, rename the target
aside; then copy the payload into place, hash the file as landed, and
record one `DeployedDll` (with `backupPath` exactly when the backup name
exists after the copy).  `failAt = some i` throws at the i-th copy. -/
def installFiles (orig : List DeployedDll) (failAt : Option Nat) :
    Nat → Dir → List (String × FileData) → Dir × Except String (List DeployedDll)
  | _, d, [] => (d, .ok [])
  | i, d, (n, c) :: rest =>
    let d1 :=
      if (d n).isSome then
        if !(d (bakName n)).isSome && !trackedIn orig n then frename d n (bakName n) else d
      else d
    if failAt = some i then
      (d1, .error ("EIO: copy failed, copyfile -> " ++ n))
    else
      let d2 := fwrite d1 n c
      let entry : DeployedDll :=
        { name := n
          hash := hashInDir d2 n
          backupPath := if (d2 (bakName n)).isSome then some (bakName n) else none }
      let res := installFiles orig failAt (i + 1) d2 rest
      (res.1, match res.2 with
        | .ok es => .ok (entry :: es)
        | .error e => .error e)

/-- Fresh manifest literal created by `installEngine` when no manifest
can be read. -/
def freshManifest (gameId : String) (fork : DxvkFork) (version : String)
    (arch : Arch) (now : String) : Manifest :=
  { gameId := gameId
    engineVersion := version
    engineFork := fork
    architecture := arch
    installedAt := now
    dlls := []
    configPath := none
    components := some { dxvk := none, vkd3d := none } }

/-- Legacy-manifest migration in `installEngine`: when `components` is
absent, rebuild it; a valid legacy manifest (truthy `engineVersion` and
`engineFork`; the fork enumeration has no falsy value, so the condition
is a nonempty version) is assumed to have been DXVK. -/
def migrateComps (m : Manifest) : Components :=
  match m.components with
  | some cs => cs
  | none =>
    if m.engineVersion ≠ "" then
      { dxvk := some { version := m.engineVersion, fork := m.engineFork }, vkd3d := none }
    else
      { dxvk := none, vkd3d := none }

/-- `installEngine` (deployer.ts lines 235-349).  Fails on unknown
architecture before anything else; fails on an empty payload before
touching the game directory; otherwise reads (or freshly creates) the
manifest, updates the per-component record and the legacy top-level
fields, drops the old entries owned by the installed component, runs the
per-file backup/copy/hash loop, and only then writes the manifest.
Returns the directory as mutated (faults included) and either the
written manifest or the thrown error. -/
def installEngine (d : Dir) (gameId : String) (fork : DxvkFork) (version : String)
    (arch : Arch) (payload : List (String × FileData)) (now : String)
    (failAt : Option Nat) : Dir × Except String Manifest :=
  if arch = .unknown then
    (d, .error "Cannot install engine: unknown architecture")
  else if payload.isEmpty then
    (d, .error "No DLLs found for this fork and version")
  else
    let componentType := componentTypeOf fork
    let manifest := (readManifest d).getD (freshManifest gameId fork version arch now)
    let comps1 := setComp (migrateComps manifest) componentType
      { version := version, fork := fork }
    let m1 := { manifest with
                  components := some comps1
                  engineVersion := version
                  engineFork := fork }
    let otherDlls := m1.dlls.filter (fun e => !isTargetName componentType e.name)
    match installFiles manifest.dlls failAt 0 d payload with
    | (d', .error e) => (d', .error e)
    | (d', .ok deployed) =>
      let m2 := { m1 with dlls := otherDlls ++ deployed, installedAt := now }
      (writeManifest d' m2, .ok m2)

/-- Removal loop of `uninstallEngine`: delete each in-scope file if
present (absence tolerated), then rename its recorded backup back over
the original name if that backup exists. -/
def removeFiles (d : Dir) : List DeployedDll → Dir
  | [] => d
  | e :: rest =>
    let d1 := if (d e.name).isSome then fremove d e.name else d
    let d2 :=
      match e.backupPath with
      | some b => if (d1 b).isSome then frename d1 b e.name else d1
      | none => d1
    removeFiles d2 rest

/-- Generated tunable-config deletion of `uninstallEngine`: remove
`dxvk.conf` only when the manifest records it as this system's
(`manifest.configPath === confPath`). -/
def removeOwnedConf (d : Dir) (m : Manifest) : Dir :=
  if (d "dxvk.conf").isSome && m.configPath = some "dxvk.conf" then
    fremove d "dxvk.conf"
  else d

/-- `uninstallEngine` (deployer.ts lines 357-427).  Returns `false` with
no filesystem change when no manifest can be read.  Otherwise removes
the in-scope files and restores their backups; when scoped to one
component of a manifest with a `components` record, deletes that key
(`delete manifest.components[component]` runs before the rewrite) and
either rewrites the manifest with the key removed (other components
remain) or deletes the config-if-owned and the manifest (none remain);
otherwise removes config-if-owned and the manifest. -/
def uninstallEngine (d : Dir) (comp : Option Component) (now : String) : Dir × Bool :=
  match readManifest d with
  | none => (d, false)
  | some manifest =>
    let dllsToRemove := manifest.dlls.filter (fun e => isTargetOpt comp e.name)
    let dllsToKeep := manifest.dlls.filter (fun e => !isTargetOpt comp e.name)
    let d1 := removeFiles d dllsToRemove
    match comp, manifest.components with
    | some c, some cs =>
      let cs' := eraseComp cs c
      if compsEmpty cs' then
        (fremove (removeOwnedConf d1 manifest) manifestName, true)
      else
        (writeManifest d1
          { manifest with components := some cs', dlls := dllsToKeep, installedAt := now },
          true)
    | _, _ =>
      (fremove (removeOwnedConf d1 manifest) manifestName, true)

/-- Result of `checkIntegrity`:
`'ok' | 'corrupt' | 'missing' | 'not_installed'`. -/
inductive IntegrityStatus where
  | ok
  | corrupt
  | missing
  | not_installed
deriving DecidableEq, Repr

/-- Scan loop of `checkIntegrity`: first absent file returns `missing`,
first re-hash mismatch returns `corrupt`, otherwise `ok`. -/
def checkLoop (d : Dir) : List DeployedDll → IntegrityStatus
  | [] => .ok
  | e :: rest =>
    match d e.name with
    | none => .missing
    | some c => if hashData c ≠ e.hash then .corrupt else checkLoop d rest

/-- `checkIntegrity` (deployer.ts lines 186-227): `not_installed` with
no readable manifest; with a component requested and no in-scope entry,
`not_installed` (both arms of the inner check return it); otherwise the
short-circuiting scan. -/
def checkIntegrity (d : Dir) (comp : Option Component) : IntegrityStatus :=
  match readManifest d with
  | none => .not_installed
  | some manifest =>
    let targetDlls := manifest.dlls.filter (fun e => isTargetOpt comp e.name)
    if comp.isSome && targetDlls.isEmpty then .not_installed
    else checkLoop d targetDlls

/-- `PEAnalysisResult` from src/electron/shared/types.ts. -/
structure PEAnalysisResult where
  architecture : Arch
  machineType : Nat
  isValid : Bool
  error : Option String
deriving DecidableEq, Repr

/-- `PE_MACHINE_I386 = 0x014c`. -/
def PE_MACHINE_I386 : Nat := 0x014c

/-- `PE_MACHINE_AMD64 = 0x8664`. -/
def PE_MACHINE_AMD64 : Nat := 0x8664

/-- Byte of a file at an offset, as `readBytesAt` sees it: `readSync`
into a zero-filled buffer leaves zeros past the end of the file. -/
def byteAt (f : List Nat) (i : Nat) : Nat := f.getD i 0 % 256

/-- The MZ check of `analyzeExecutable`: the two bytes at offset 0 read
back as the string `MZ` (Buffer `'ascii'` decoding masks each byte to 7
bits). -/
def mzOk (f : List Nat) : Bool :=
  byteAt f 0 % 128 == 77 && byteAt f 1 % 128 == 90

/-- `e_lfanew`, the 4-byte little-endian PE header offset at 0x3C. -/
def peOffsetOf (f : List Nat) : Nat :=
  byteAt f 60 + 256 * byteAt f 61 + 65536 * byteAt f 62 + 16777216 * byteAt f 63

/-- Sanity bound on the PE offset: rejected when `< 64` or `> 1024`. -/
def peOffsetBad (f : List Nat) : Bool :=
  decide (peOffsetOf f < 64) || decide (peOffsetOf f > 1024)

/-- The PE-signature check: the four bytes at the PE offset read back as
`PE\0\0` under `'ascii'` decoding. -/
def peSigOk (f : List Nat) : Bool :=
  byteAt f (peOffsetOf f) % 128 == 80 &&
  byteAt f (peOffsetOf f + 1) % 128 == 69 &&
  byteAt f (peOffsetOf f + 2) % 128 == 0 &&
  byteAt f (peOffsetOf f + 3) % 128 == 0

/-- The 2-byte little-endian machine code immediately after the PE
signature. -/
def machineTypeOf (f : List Nat) : Nat :=
  byteAt f (peOffsetOf f + 4) + 256 * byteAt f (peOffsetOf f + 5)

/-- `analyzeExecutable` (gog-scanner.ts lines 108-181) on the content of
the file at the given path; `none` is a path whose `openSync` (or read)
throws — nonexistent or unreadable — caught by the surrounding
try/catch. -/
def analyzeExecutable : Option (List Nat) → PEAnalysisResult
  | none =>
    { architecture := .unknown, machineType := 0, isValid := false
      error := some "ENOENT: no such file or directory" }
  | some f =>
    if !mzOk f then
      { architecture := .unknown, machineType := 0, isValid := false
        error := some "Not a valid PE file (missing MZ signature)" }
    else if peOffsetBad f then
      { architecture := .unknown, machineType := 0, isValid := false
        error := some "Invalid PE header offset" }
    else if !peSigOk f then
      { architecture := .unknown, machineType := 0, isValid := false
        error := some "Invalid PE signature" }
    else
      let machineType := machineTypeOf f
      { architecture :=
          if machineType = PE_MACHINE_I386 then .a32
          else if machineType = PE_MACHINE_AMD64 then .a64
          else .unknown
        machineType := machineType
        isValid := true
        error := none }

/-- A filename produced by `getEngineDlls`:
`readdirSync(dllPath).filter(f => f.endsWith('.dll'))` only returns
names ending in `.dll`. -/
def hasDllExt (n : String) : Prop := ∃ r : String, n = r ++ ".dll"

/-- Condition under which the install loop renames a target aside:
the target exists, no backup-name file exists, and the target is
untracked. -/
def renamedBak (orig : List DeployedDll) (d : Dir) (n : String) : Bool :=
  (d n).isSome && !(d (bakName n)).isSome && !trackedIn orig n

/-- Condition under which the install loop records a `backupPath` for a
target: the backup-name file exists after the copy — either it already
existed, or the rename just created it. -/
def recordsBak (orig : List DeployedDll) (d : Dir) (n : String) : Bool :=
  (d (bakName n)).isSome || ((d n).isSome && !trackedIn orig n)

/-- The `DeployedDll` record accumulated for one payload file, expressed
against the directory state at the start of the loop. -/
def entryOf (orig : List DeployedDll) (d : Dir) (p : String × FileData) : DeployedDll :=
  { name := p.1
    hash := hashData p.2
    backupPath := if recordsBak orig d p.1 then some (bakName p.1) else none }

/-- An integrity problem at one manifest entry: the named file is absent
or its re-computed hash differs from the recorded one. -/
def entryBad (d : Dir) (e : DeployedDll) : Bool :=
  match d e.name with
  | none => true
  | some c => hashData c != e.hash

/-- Scan contract written from the specification's words (§4.5, as
amended): the first problematic entry decides the result — `missing` if
its file is absent, `corrupt` if it hash-mismatches; `ok` when no entry
is problematic. -/
def specScan (d : Dir) (l : List DeployedDll) : IntegrityStatus :=
  match l.find? (entryBad d) with
  | none => .ok
  | some e => if (d e.name).isNone then .missing else .corrupt

/-- Integrity-check contract written from the specification's words
(§4.5), amended where the code deviates: no readable manifest is
`not_installed`; a requested family with no in-scope entry is
`not_installed`; otherwise the first-problem-wins scan (an unscoped
check of a manifest with no entries therefore scans nothing and is
`ok`). -/
def specCheckIntegrity (d : Dir) (comp : Option Component) : IntegrityStatus :=
  match readManifest d with
  | none => .not_installed
  | some manifest =>
    let targetDlls := manifest.dlls.filter (fun e => isTargetOpt comp e.name)
    if comp.isSome && targetDlls.isEmpty then .not_installed
    else specScan d targetDlls

/-- Fixture: bytes of a pre-existing third-party `foo.dll`
("ORIGINAL" in the specification's concrete scenario, §8). -/
def exOriginal : FileData := .bytes [79, 82, 73, 71]

/-- Fixture: bytes of the payload file ("NEWPAYLOAD" in §8). -/
def exNew : FileData := .bytes [78, 69, 87]

/-- Fixture: bytes of a stale leftover backup file. -/
def exStale : FileData := .bytes [83, 84, 65]

/-- Fixture: a game directory holding a single third-party `foo.dll` and
no manifest. -/
def exDir : Dir := fun n => if n = "foo.dll" then some exOriginal else none

/-- Fixture: a game directory holding `foo.dll` and a stale
`foo.dll.bak_dxvk_studio`, and no manifest. -/
def exDirStale : Dir := fun n =>
  if n = "foo.dll" then some exOriginal
  else if n = "foo.dll.bak_dxvk_studio" then some exStale
  else none

/-- Fixture: a parseable manifest whose `dlls` list is empty. -/
def exManifestNoDlls : Manifest :=
  { gameId := "g"
    engineVersion := "2.7"
    engineFork := .official
    architecture := .a64
    installedAt := "2025-01-01T00:00:00.000Z"
    dlls := []
    configPath := none
    components := some { dxvk := none, vkd3d := none } }

/-- Fixture: a game directory whose only file is the serialized
`exManifestNoDlls`. -/
def exDirNoDlls : Dir := fun n =>
  if n = manifestName then some (.manifestData exManifestNoDlls) else none

/-- Fixture: a game directory whose manifest file holds unparseable raw
bytes (a corrupt manifest). -/
def exDirCorrupt : Dir := fun n =>
  if n = manifestName then some (.bytes [123, 34, 98]) else none

/-- Fixture: header bytes of a well-formed 32-bit PE executable:
`MZ`, `e_lfanew = 64`, `PE\0\0` at 64, machine code 0x014c. -/
def exe32 : List Nat :=
  [77, 90] ++ List.replicate 58 0 ++ [64, 0, 0, 0] ++ [80, 69, 0, 0] ++ [0x4c, 0x01]

/-- Fixture: the same header with machine code 0x8664 (64-bit). -/
def exe64 : List Nat :=
  [77, 90] ++ List.replicate 58 0 ++ [64, 0, 0, 0] ++ [80, 69, 0, 0] ++ [0x64, 0x86]

/-- Fixture: the same header with an unrecognized machine code 0x01aa. -/
def exeOtherMachine : List Nat :=
  [77, 90] ++ List.replicate 58 0 ++ [64, 0, 0, 0] ++ [80, 69, 0, 0] ++ [0xaa, 0x01]

/-- Manifest value written by a successful `installEngine` call, as a
function of the manifest `m0` read (or freshly created) at the start of
the call and of the accumulated `DeployedDll` list. -/
def instManifest (m0 : Manifest) (fork : DxvkFork) (version now : String)
    (deployed : List DeployedDll) : Manifest :=
  { m0 with
      components := some (setComp (migrateComps m0) (componentTypeOf fork)
        { version := version, fork := fork })
      engineVersion := version
      engineFork := fork
      dlls := m0.dlls.filter (fun e => !isTargetName (componentTypeOf fork) e.name) ++ deployed
      installedAt := now }

/-! ### Filename and directory lemmas -/

theorem string_data_inj {s t : String} (h : s.data = t.data) : s = t := by
  cases s; cases t; simp_all

theorem hasDllExt_getLast {n : String} (h : hasDllExt n) :
    n.data.getLast? = some 'l' := by
  obtain ⟨r, rfl⟩ := h
  rw [String.data_append, List.getLast?_append]
  rfl

theorem bakName_getLast (n : String) : (bakName n).data.getLast? = some 'o' := by
  rw [bakName, String.data_append, List.getLast?_append]
  rfl

theorem manifestName_getLast : manifestName.data.getLast? = some 'n' := by decide

theorem hasDllExt_ne_bak {n : String} (h : hasDllExt n) (m : String) :
    n ≠ bakName m := by
  intro he
  have h1 := hasDllExt_getLast h
  rw [he, bakName_getLast] at h1
  simp at h1

theorem hasDllExt_ne_manifestName {n : String} (h : hasDllExt n) :
    n ≠ manifestName := by
  intro he
  have h1 := hasDllExt_getLast h
  rw [he, manifestName_getLast] at h1
  simp at h1

theorem bakName_ne_manifestName (n : String) : bakName n ≠ manifestName := by
  intro he
  have h1 := bakName_getLast n
  rw [he, manifestName_getLast] at h1
  simp at h1

theorem bakName_inj {n m : String} (h : bakName n = bakName m) : n = m := by
  have h1 : n.data ++ (".bak_dxvk_studio" : String).data
      = m.data ++ (".bak_dxvk_studio" : String).data := by
    have := congrArg String.data h
    simpa [bakName, String.data_append] using this
  exact string_data_inj (List.append_cancel_right h1)

theorem bakName_ne_self (n : String) : bakName n ≠ n := by
  intro he
  have h1 := congrArg (fun s => s.data.length) he
  simp [bakName, String.data_append] at h1

theorem fwrite_at (d : Dir) (n : String) (c : FileData) : fwrite d n c n = some c := by
  simp [fwrite]

theorem fwrite_ne (d : Dir) {n m : String} (c : FileData) (h : m ≠ n) :
    fwrite d n c m = d m := by
  simp [fwrite, h]

theorem fremove_at (d : Dir) (n : String) : fremove d n n = none := by
  simp [fremove]

theorem fremove_ne (d : Dir) {n m : String} (h : m ≠ n) : fremove d n m = d m := by
  simp [fremove, h]

theorem frename_at_dst (d : Dir) (s t : String) : frename d s t t = d s := by
  simp [frename]

theorem frename_at_src (d : Dir) {s t : String} (h : s ≠ t) : frename d s t s = none := by
  simp [frename, h]

theorem frename_ne (d : Dir) {s t m : String} (h1 : m ≠ t) (h2 : m ≠ s) :
    frename d s t m = d m := by
  simp [frename, h1, h2]

/-! ### The scan loop of checkIntegrity matches the first-problem-wins contract -/

theorem checkLoop_eq_specScan (d : Dir) (l : List DeployedDll) :
    checkLoop d l = specScan d l := by
  induction l with
  | nil => rfl
  | cons e rest ih =>
    simp only [checkLoop, specScan, List.find?]
    rcases he : d e.name with _ | c
    · simp [entryBad, he]
    · by_cases hh : hashData c = e.hash
      · have hb : entryBad d e = false := by simp [entryBad, he, hh]
        simp [he, hh, hb, ih, specScan]
      · have hb : entryBad d e = true := by simp [entryBad, he, hh]
        simp [he, hh, hb]

/-! ### The install loop, characterized -/

theorem not_hasDllExt_bakName (m : String) : ¬ hasDllExt (bakName m) := by
  intro h
  have h1 := hasDllExt_getLast h
  rw [bakName_getLast] at h1
  simp at h1

theorem installFiles_cons_none (orig : List DeployedDll) (i : Nat) (d : Dir)
    (n : String) (c : FileData) (rest : List (String × FileData)) :
    installFiles orig none i d ((n, c) :: rest) =
      (let d1 :=
        if (d n).isSome then
          if !(d (bakName n)).isSome && !trackedIn orig n then frename d n (bakName n) else d
        else d
       let d2 := fwrite d1 n c
       let res := installFiles orig none (i + 1) d2 rest
       let entry : DeployedDll :=
         { name := n
           hash := hashInDir d2 n
           backupPath := if (d2 (bakName n)).isSome then some (bakName n) else none }
       (res.1, match res.2 with
         | .ok es => .ok (entry :: es)
         | .error e => .error e)) := rfl

theorem installFiles_none_spec (orig : List DeployedDll)
    (payload : List (String × FileData)) :
    ∀ (i : Nat) (d : Dir),
    (payload.map Prod.fst).Nodup →
    (∀ n ∈ payload.map Prod.fst, hasDllExt n) →
    ∃ d',
      installFiles orig none i d payload = (d', .ok (payload.map (entryOf orig d))) ∧
      (∀ m, m ∉ payload.map Prod.fst →
        (∀ n ∈ payload.map Prod.fst, m ≠ bakName n) → d' m = d m) ∧
      (∀ p ∈ payload, d' p.1 = some p.2) ∧
      (∀ n ∈ payload.map Prod.fst,
        d' (bakName n) = if renamedBak orig d n then d n else d (bakName n)) := by
  induction payload with
  | nil =>
    intro i d _ _
    exact ⟨d, rfl, fun m _ _ => rfl, by simp, by simp⟩
  | cons p rest ih =>
    obtain ⟨n, c⟩ := p
    intro i d hnd hdll
    have hnotin : n ∉ rest.map Prod.fst := by
      simp only [List.map_cons, List.nodup_cons] at hnd
      exact hnd.1
    have hnd' : (rest.map Prod.fst).Nodup := by
      simp only [List.map_cons, List.nodup_cons] at hnd
      exact hnd.2
    have hdn : hasDllExt n := hdll n (by simp)
    have hdll' : ∀ m ∈ rest.map Prod.fst, hasDllExt m := by
      intro m hm
      exact hdll m (by simp [hm])
    set d1 := (if (d n).isSome then
        if !(d (bakName n)).isSome && !trackedIn orig n then frename d n (bakName n) else d
      else d) with hd1
    set d2 := fwrite d1 n c with hd2
    have hF1 : ∀ m, m ≠ n → m ≠ bakName n → d2 m = d m := by
      intro m hm1 hm2
      rw [hd2, fwrite_ne d1 c hm1, hd1]
      split
      · split
        · exact frename_ne d hm2 hm1
        · rfl
      · rfl
    have hF2 : d2 n = some c := fwrite_at d1 n c
    have hF3 : d2 (bakName n) = if renamedBak orig d n then d n else d (bakName n) := by
      have hbn : bakName n ≠ n := bakName_ne_self n
      rw [hd2, fwrite_ne d1 c hbn, hd1, renamedBak]
      rcases ht : (d n).isSome with _ | _
      · simp [ht]
      · rcases hb : (d (bakName n)).isSome with _ | _
        · rcases htr : trackedIn orig n with _ | _
          · simp [ht, hb, htr, frename_at_dst]
          · simp [ht, hb, htr]
        · simp [ht, hb]
    have hentry : DeployedDll.mk n (hashInDir d2 n)
        (if (d2 (bakName n)).isSome then some (bakName n) else none)
        = entryOf orig d (n, c) := by
      have hh : hashInDir d2 n = hashData c := by
        rw [hashInDir, hF2]
        rfl
      rw [entryOf, hh]
      refine congrArg _ ?_
      rw [hF3, recordsBak]
      rcases ht : (d n).isSome with _ | _
      · rcases hb : (d (bakName n)).isSome with _ | _
        · simp [renamedBak, ht, hb]
        · simp [renamedBak, ht, hb]
      · rcases hb : (d (bakName n)).isSome with _ | _
        · rcases htr : trackedIn orig n with _ | _
          · simp [renamedBak, ht, hb, htr]
          · simp [renamedBak, ht, hb, htr]
        · simp [renamedBak, ht, hb]
    obtain ⟨d', heq, hframe, hmem, hbak⟩ := ih (i + 1) d2 hnd' hdll'
    have hagree : ∀ m ∈ rest.map Prod.fst, d2 m = d m ∧ d2 (bakName m) = d (bakName m) := by
      intro m hm
      have hdm : hasDllExt m := hdll' m hm
      have hmn : m ≠ n := fun he => hnotin (he ▸ hm)
      constructor
      · exact hF1 m hmn (hasDllExt_ne_bak hdm n)
      · refine hF1 (bakName m) ?_ ?_
        · exact fun he => (hasDllExt_ne_bak hdn m) he.symm
        · exact fun he => hmn (bakName_inj he)
    have hmap : rest.map (entryOf orig d2) = rest.map (entryOf orig d) := by
      refine List.map_congr_left ?_
      intro p hp
      have hp1 : p.1 ∈ rest.map Prod.fst := List.mem_map_of_mem Prod.fst hp
      obtain ⟨ha1, ha2⟩ := hagree p.1 hp1
      rw [entryOf, entryOf, recordsBak, recordsBak, ha1, ha2]
    refine ⟨d', ?_, ?_, ?_, ?_⟩
    · rw [installFiles_cons_none]
      simp only []
      rw [← hd1, ← hd2, heq]
      simp only [List.map_cons]
      rw [hentry, hmap]
    · intro m hm hmb
      have hm' : m ∉ rest.map Prod.fst := by
        intro hx
        exact hm (by simp [hx])
      have hmb' : ∀ n' ∈ rest.map Prod.fst, m ≠ bakName n' := by
        intro n' hn'
        exact hmb n' (by simp [hn'])
      have hmn : m ≠ n := by
        intro he
        exact hm (by simp [he])
      have hmbn : m ≠ bakName n := hmb n (by simp)
      rw [hframe m hm' hmb', hF1 m hmn hmbn]
    · intro p hp
      rcases List.mem_cons.mp hp with rfl | hp
      · have h1 : n ∉ rest.map Prod.fst := hnotin
        have h2 : ∀ n' ∈ rest.map Prod.fst, n ≠ bakName n' := by
          intro n' _
          exact hasDllExt_ne_bak hdn n'
        show d' n = some c
        rw [hframe n h1 h2]
        exact hF2
      · exact hmem p hp
    · intro m hm
      simp only [List.map_cons] at hm
      rcases List.mem_cons.mp hm with he | hm
      · rw [he]
        have h1 : bakName n ∉ rest.map Prod.fst := by
          intro hx
          exact not_hasDllExt_bakName n (hdll' (bakName n) hx)
        have h2 : ∀ n' ∈ rest.map Prod.fst, bakName n ≠ bakName n' := by
          intro n' hn' hee
          exact hnotin ((bakName_inj hee) ▸ hn')
        show d' (bakName n) = if renamedBak orig d n then d n else d (bakName n)
        rw [hframe (bakName n) h1 h2]
        exact hF3
      · obtain ⟨ha1, ha2⟩ := hagree m hm
        rw [hbak m hm, renamedBak, renamedBak, ha1, ha2]

/-! ### The uninstall removal loop, characterized -/

theorem removeFiles_cons (d : Dir) (e : DeployedDll) (rest : List DeployedDll) :
    removeFiles d (e :: rest) =
      (let d1 := if (d e.name).isSome then fremove d e.name else d
       let d2 :=
         match e.backupPath with
         | some b => if (d1 b).isSome then frename d1 b e.name else d1
         | none => d1
       removeFiles d2 rest) := rfl

theorem removeFiles_spec (l : List DeployedDll) :
    ∀ d : Dir,
    (l.map DeployedDll.name).Nodup →
    (∀ e ∈ l, hasDllExt e.name ∧
      (e.backupPath = none ∨ e.backupPath = some (bakName e.name))) →
    (∀ m, (∀ e ∈ l, m ≠ e.name ∧ m ≠ bakName e.name) → removeFiles d l m = d m) ∧
    (∀ e ∈ l,
      removeFiles d l e.name =
        (if e.backupPath = some (bakName e.name) ∧ (d (bakName e.name)).isSome then
          d (bakName e.name) else none) ∧
      removeFiles d l (bakName e.name) =
        (if e.backupPath = some (bakName e.name) ∧ (d (bakName e.name)).isSome then
          none else d (bakName e.name))) := by
  induction l with
  | nil =>
    intro d _ _
    exact ⟨fun m _ => rfl, by simp⟩
  | cons e rest ih =>
    intro d hnd hshape
    have hde : hasDllExt e.name := (hshape e (by simp)).1
    have hbp : e.backupPath = none ∨ e.backupPath = some (bakName e.name) :=
      (hshape e (by simp)).2
    have hnotin : e.name ∉ rest.map DeployedDll.name := by
      simp only [List.map_cons, List.nodup_cons] at hnd
      exact hnd.1
    have hnd' : (rest.map DeployedDll.name).Nodup := by
      simp only [List.map_cons, List.nodup_cons] at hnd
      exact hnd.2
    have hshape' : ∀ e' ∈ rest, hasDllExt e'.name ∧
        (e'.backupPath = none ∨ e'.backupPath = some (bakName e'.name)) := by
      intro e' he'
      exact hshape e' (by simp [he'])
    set d1 := (if (d e.name).isSome then fremove d e.name else d) with hd1
    set d2 := (match e.backupPath with
      | some b => if (d1 b).isSome then frename d1 b e.name else d1
      | none => d1) with hd2
    have hd1ne : ∀ m, m ≠ e.name → d1 m = d m := by
      intro m hm
      rw [hd1]
      split
      · exact fremove_ne d hm
      · rfl
    have hd1at : d1 e.name = none := by
      rw [hd1]
      rcases hy : d e.name with _ | v
      · simp [hy]
      · simp [hy, fremove]
    have hS1 : ∀ m, m ≠ e.name → m ≠ bakName e.name → d2 m = d m := by
      intro m hm1 hm2
      rw [hd2]
      rcases hbp with hb | hb
      · rw [hb]
        exact hd1ne m hm1
      · rw [hb]
        show (if (d1 (bakName e.name)).isSome then
          frename d1 (bakName e.name) e.name else d1) m = d m
        split
        · rw [frename_ne d1 hm1 hm2]
          exact hd1ne m hm1
        · exact hd1ne m hm1
    have hbakne : bakName e.name ≠ e.name := bakName_ne_self e.name
    have hd1bak : d1 (bakName e.name) = d (bakName e.name) := hd1ne _ hbakne
    have hS2 : d2 e.name =
        (if e.backupPath = some (bakName e.name) ∧ (d (bakName e.name)).isSome then
          d (bakName e.name) else none) := by
      rw [hd2]
      rcases hbp with hb | hb
      · rw [hb]
        rw [if_neg (by simp [hb])]
        exact hd1at
      · rw [hb]
        show (if (d1 (bakName e.name)).isSome then
          frename d1 (bakName e.name) e.name else d1) e.name = _
        rw [hd1bak]
        rcases hx : (d (bakName e.name)).isSome with _ | _
        · rw [if_neg (by simp [hx]), if_neg (by simp [hb, hx])]
          exact hd1at
        · rw [if_pos (by simp [hx]), if_pos (by simp [hb, hx]), frename_at_dst, hd1bak]
    have hS3 : d2 (bakName e.name) =
        (if e.backupPath = some (bakName e.name) ∧ (d (bakName e.name)).isSome then
          none else d (bakName e.name)) := by
      rw [hd2]
      rcases hbp with hb | hb
      · rw [hb]
        rw [if_neg (by simp [hb])]
        exact hd1bak
      · rw [hb]
        show (if (d1 (bakName e.name)).isSome then
          frename d1 (bakName e.name) e.name else d1) (bakName e.name) = _
        rw [hd1bak]
        rcases hx : (d (bakName e.name)).isSome with _ | _
        · rw [if_neg (by simp [hx]), if_neg (by simp [hb, hx])]
          exact hd1bak
        · rw [if_pos (by simp [hx]), if_pos (by simp [hb, hx]), frename_at_src d1 hbakne]
    have hagree : ∀ e' ∈ rest, d2 e'.name = d e'.name ∧
        d2 (bakName e'.name) = d (bakName e'.name) := by
      intro e' he'
      have hde' : hasDllExt e'.name := (hshape' e' he').1
      have hne : e'.name ≠ e.name := by
        intro hx
        exact hnotin (hx ▸ List.mem_map_of_mem DeployedDll.name he')
      constructor
      · exact hS1 e'.name hne (hasDllExt_ne_bak hde' e.name)
      · refine hS1 (bakName e'.name) ?_ ?_
        · exact fun hx => (hasDllExt_ne_bak hde e'.name) hx.symm
        · exact fun hx => hne (bakName_inj hx)
    obtain ⟨ihframe, ihmem⟩ := ih d2 hnd' hshape'
    constructor
    · intro m hm
      have hm' : ∀ e' ∈ rest, m ≠ e'.name ∧ m ≠ bakName e'.name := by
        intro e' he'
        exact hm e' (by simp [he'])
      rw [removeFiles_cons]
      simp only []
      rw [← hd1, ← hd2, ihframe m hm']
      exact hS1 m (hm e (by simp)).1 (hm e (by simp)).2
    · intro e' he'
      rcases List.mem_cons.mp he' with he'' | he''
      · subst he''
        have hcond : ∀ e'' ∈ rest, e'.name ≠ e''.name ∧ e'.name ≠ bakName e''.name := by
          intro e'' he2
          constructor
          · intro hx
            exact hnotin (hx ▸ List.mem_map_of_mem DeployedDll.name he2)
          · exact hasDllExt_ne_bak hde e''.name
        have hcondb : ∀ e'' ∈ rest, bakName e'.name ≠ e''.name ∧
            bakName e'.name ≠ bakName e''.name := by
          intro e'' he2
          constructor
          · exact fun hx => (hasDllExt_ne_bak (hshape' e'' he2).1 e'.name) hx.symm
          · intro hx
            exact hnotin ((bakName_inj hx) ▸ List.mem_map_of_mem DeployedDll.name he2)
        constructor
        · rw [removeFiles_cons]
          simp only []
          rw [← hd1, ← hd2, ihframe e'.name hcond]
          exact hS2
        · rw [removeFiles_cons]
          simp only []
          rw [← hd1, ← hd2, ihframe (bakName e'.name) hcondb]
          exact hS3
      · obtain ⟨ha1, ha2⟩ := hagree e' he''
        obtain ⟨ih1, ih2⟩ := ihmem e' he''
        constructor
        · rw [removeFiles_cons]
          simp only []
          rw [← hd1, ← hd2, ih1, ha2]
        · rw [removeFiles_cons]
          simp only []
          rw [← hd1, ← hd2, ih2, ha2]

/-! ### installEngine on the success path -/

theorem readManifest_eq_none (d : Dir) (h : d manifestName = none) :
    readManifest d = none := by
  rw [readManifest, h]

theorem readManifest_write (d : Dir) (m : Manifest) :
    readManifest (writeManifest d m) = some m := by
  rw [readManifest, writeManifest, fwrite_at]

theorem entryOf_name (o : List DeployedDll) (d : Dir) (p : String × FileData) :
    (entryOf o d p).name = p.1 := rfl

theorem installEngine_ok_spec
    (d : Dir) (gid version now : String) (fork : DxvkFork) (arch : Arch)
    (payload : List (String × FileData)) (m0 : Manifest)
    (h1 : arch ≠ .unknown) (h2 : payload ≠ [])
    (hnd : (payload.map Prod.fst).Nodup)
    (hdll : ∀ n ∈ payload.map Prod.fst, hasDllExt n)
    (hm0 : m0 = (readManifest d).getD (freshManifest gid fork version arch now)) :
    ∃ d',
      installEngine d gid fork version arch payload now none =
        (writeManifest d'
          (instManifest m0 fork version now (payload.map (entryOf m0.dlls d))),
         .ok (instManifest m0 fork version now (payload.map (entryOf m0.dlls d)))) ∧
      (∀ m, m ∉ payload.map Prod.fst →
        (∀ n ∈ payload.map Prod.fst, m ≠ bakName n) → d' m = d m) ∧
      (∀ p ∈ payload, d' p.1 = some p.2) ∧
      (∀ n ∈ payload.map Prod.fst,
        d' (bakName n) = if renamedBak m0.dlls d n then d n else d (bakName n)) := by
  have hpe : payload.isEmpty = false := by
    cases payload with
    | nil => exact absurd rfl h2
    | cons p r => rfl
  obtain ⟨d', heq, hframe, hmem, hbak⟩ :=
    installFiles_none_spec m0.dlls payload 0 d hnd hdll
  refine ⟨d', ?_, hframe, hmem, hbak⟩
  rw [installEngine, if_neg h1, if_neg (by simp [hpe])]
  simp only [← hm0]
  rw [heq]
  rfl

/-! ### Claims C4, C10, C3, C7, C8 -/

/-- C4: `installEngine` called with architecture `unknown`, or with an
empty payload listing, fails with a thrown error before any mutation of
the game directory: the directory is returned exactly as it was. -/
theorem install_rejects_bad_input
    (d : Dir) (gid version now : String) (fork : DxvkFork) (arch : Arch)
    (payload : List (String × FileData)) (failAt : Option Nat)
    (h : arch = .unknown ∨ payload = []) :
    (installEngine d gid fork version arch payload now failAt).1 = d ∧
    ∃ e, (installEngine d gid fork version arch payload now failAt).2 = .error e := by
  rcases h with h | h
  · subst h
    rw [installEngine]
    exact ⟨rfl, _, rfl⟩
  · subst h
    by_cases ha : arch = .unknown
    · subst ha
      rw [installEngine]
      exact ⟨rfl, _, rfl⟩
    · rw [installEngine, if_neg ha]
      exact ⟨rfl, _, rfl⟩

/-- C4 witness: the rejections evaluated at concrete inputs. -/
theorem install_rejects_bad_input_app :
    (installEngine exDir "g" .official "2.7" .unknown [("foo.dll", exNew)] "t" none).1 = exDir ∧
    ∃ e, (installEngine exDir "g" .official "2.7" .unknown
      [("foo.dll", exNew)] "t" none).2 = .error e :=
  install_rejects_bad_input exDir "g" "2.7" "t" .official .unknown
    [("foo.dll", exNew)] none (Or.inl rfl)

/-- C10: with no readable manifest (file absent or unparseable),
`uninstallEngine` returns `false` and the directory is returned exactly
as it was — no file deleted, renamed, or written. -/
theorem uninstall_no_manifest_noop (d : Dir) (comp : Option Component) (now : String)
    (h : readManifest d = none) :
    uninstallEngine d comp now = (d, false) := by
  rw [uninstallEngine, h]

/-- C10 witness: uninstalling from a directory whose manifest file holds
unparseable bytes changes nothing and returns false. -/
theorem uninstall_no_manifest_noop_app :
    uninstallEngine exDirCorrupt none "t" = (exDirCorrupt, false) :=
  uninstall_no_manifest_noop exDirCorrupt none "t" (by rfl)

/-- C3 (amended): `checkIntegrity` equals the specification contract
amended at one point — no readable manifest is `not_installed`; a
requested family with an empty filtered entry set is `not_installed`;
otherwise the filtered entries are scanned in order with the first
missing file returning `missing`, the first hash mismatch returning
`corrupt`, and `ok` otherwise; in particular an unscoped check of a
manifest with an empty entry list scans nothing and returns `ok`, not
`not_installed` as the original claim stated. -/
theorem checkIntegrity_spec (d : Dir) (comp : Option Component) :
    checkIntegrity d comp = specCheckIntegrity d comp := by
  rcases hm : readManifest d with _ | m
  · rw [checkIntegrity, specCheckIntegrity, hm]
  · rw [checkIntegrity, specCheckIntegrity, hm]
    simp only [checkLoop_eq_specScan]

/-- C3 counterexample: a parseable manifest with an empty `dlls` list,
checked unscoped: the filtered set is empty, yet the result is `ok`,
not `not_installed`. -/
theorem checkIntegrity_unscoped_empty_cex :
    (readManifest exDirNoDlls = some exManifestNoDlls) ∧
    exManifestNoDlls.dlls.filter (fun e => isTargetOpt none e.name) = [] ∧
    checkIntegrity exDirNoDlls none = .ok ∧
    checkIntegrity exDirNoDlls none ≠ .not_installed := by
  refine ⟨by rfl, by rfl, by rfl, by decide⟩

/-- C7: once the MZ check, the PE-offset bound, and the PE-signature
check pass, the result is valid and determined by the 2-byte
little-endian machine code: 0x014c maps to 32-bit, 0x8664 to 64-bit, and
any other code to `unknown` with `isValid` still true. -/
theorem analyzeExecutable_machine_mapping (f : List Nat)
    (hmz : mzOk f = true) (hoff : peOffsetBad f = false) (hsig : peSigOk f = true) :
    (analyzeExecutable (some f)).isValid = true ∧
    (analyzeExecutable (some f)).machineType = machineTypeOf f ∧
    (machineTypeOf f = PE_MACHINE_I386 → (analyzeExecutable (some f)).architecture = .a32) ∧
    (machineTypeOf f = PE_MACHINE_AMD64 → (analyzeExecutable (some f)).architecture = .a64) ∧
    (machineTypeOf f ≠ PE_MACHINE_I386 → machineTypeOf f ≠ PE_MACHINE_AMD64 →
      (analyzeExecutable (some f)).architecture = .unknown) := by
  rw [analyzeExecutable, hmz, hoff, hsig]
  refine ⟨rfl, rfl, ?_, ?_, ?_⟩
  · intro h
    simp [h]
  · intro h
    by_cases h2 : machineTypeOf f = PE_MACHINE_I386
    · exact absurd (h2.symm.trans h) (by decide)
    · simp only [if_neg h2, if_pos h]
      rfl
  · intro h1 h2
    simp only [if_neg h1, if_neg h2]
    rfl

/-- C7 witness: the machine-code mapping evaluated on a concrete
32-bit header. -/
theorem analyzeExecutable_machine_mapping_app :
    (analyzeExecutable (some exe32)).isValid = true ∧
    (analyzeExecutable (some exe32)).machineType = machineTypeOf exe32 ∧
    (machineTypeOf exe32 = PE_MACHINE_I386 →
      (analyzeExecutable (some exe32)).architecture = .a32) ∧
    (machineTypeOf exe32 = PE_MACHINE_AMD64 →
      (analyzeExecutable (some exe32)).architecture = .a64) ∧
    (machineTypeOf exe32 ≠ PE_MACHINE_I386 → machineTypeOf exe32 ≠ PE_MACHINE_AMD64 →
      (analyzeExecutable (some exe32)).architecture = .unknown) :=
  analyzeExecutable_machine_mapping exe32 (by decide) (by decide) (by decide)

/-- C8: `analyzeExecutable` never throws past its boundary — for an
unreadable/nonexistent file or a structurally invalid header (missing MZ
signature, out-of-bounds PE offset, or wrong PE signature) it returns
`isValid` false together with a nonempty human-readable error string. -/
theorem analyzeExecutable_error_handling (f : Option (List Nat))
    (h : f = none ∨ ∃ l, f = some l ∧
      (mzOk l = false ∨ peOffsetBad l = true ∨ peSigOk l = false)) :
    (analyzeExecutable f).isValid = false ∧
    ∃ e, (analyzeExecutable f).error = some e ∧ e ≠ "" := by
  rcases h with rfl | ⟨l, rfl, hl⟩
  · exact ⟨rfl, "ENOENT: no such file or directory", rfl, by decide⟩
  · rcases hmz : mzOk l with _ | _
    · rw [analyzeExecutable, hmz]
      exact ⟨rfl, "Not a valid PE file (missing MZ signature)", rfl, by decide⟩
    · rcases hoff : peOffsetBad l with _ | _
      · rcases hsig : peSigOk l with _ | _
        · rw [analyzeExecutable, hmz, hoff, hsig]
          exact ⟨rfl, "Invalid PE signature", rfl, by decide⟩
        · rcases hl with hl | hl | hl
          · rw [hmz] at hl
            exact absurd hl (by decide)
          · rw [hoff] at hl
            exact absurd hl (by decide)
          · rw [hsig] at hl
            exact absurd hl (by decide)
      · rw [analyzeExecutable, hmz, hoff]
        exact ⟨rfl, "Invalid PE header offset", rfl, by decide⟩

/-- C8 witness: the error contract evaluated on a byte list with no MZ
signature. -/
theorem analyzeExecutable_error_handling_app :
    (analyzeExecutable (some [0, 0, 0])).isValid = false ∧
    ∃ e, (analyzeExecutable (some [0, 0, 0])).error = some e ∧ e ≠ "" :=
  analyzeExecutable_error_handling (some [0, 0, 0])
    (Or.inr ⟨[0, 0, 0], rfl, Or.inl (by decide)⟩)

/-! ### Uninstall unfolding and claim C1 -/

theorem uninstallEngine_read_some (d : Dir) (M : Manifest) (comp : Option Component)
    (now : String) (h : readManifest d = some M) :
    uninstallEngine d comp now =
      (let dllsToRemove := M.dlls.filter (fun e => isTargetOpt comp e.name)
       let dllsToKeep := M.dlls.filter (fun e => !isTargetOpt comp e.name)
       let d1 := removeFiles d dllsToRemove
       match comp, M.components with
       | some c, some cs =>
         if compsEmpty (eraseComp cs c) then
           (fremove (removeOwnedConf d1 M) manifestName, true)
         else
           (writeManifest d1
             { M with components := some (eraseComp cs c), dlls := dllsToKeep, installedAt := now },
             true)
       | _, _ =>
         (fremove (removeOwnedConf d1 M) manifestName, true)) := by
  rw [uninstallEngine, h]

theorem eraseComp_setComp_empty (c : Component) (i : ComponentInfo) :
    eraseComp (setComp { dxvk := none, vkd3d := none } c i) c =
      { dxvk := none, vkd3d := none } := by
  cases c <;> rfl

/-- C1 (amended): starting from a game directory with no manifest file
and no file at any payload backup name, installing a well-formed
nonempty payload (distinct `.dll` basenames, all owned by the installed
family under the name partition) and then uninstalling scoped to that
same family restores the directory exactly: every filename maps to its
original content, and the copied files, the backups, and the manifest
are gone. -/
theorem install_uninstall_roundtrip
    (d : Dir) (gid version now now2 : String) (fork : DxvkFork) (arch : Arch)
    (payload : List (String × FileData))
    (harch : arch ≠ .unknown) (hne : payload ≠ [])
    (hnd : (payload.map Prod.fst).Nodup)
    (hdll : ∀ n ∈ payload.map Prod.fst, hasDllExt n)
    (hown : ∀ n ∈ payload.map Prod.fst, isTargetName (componentTypeOf fork) n = true)
    (hman : d manifestName = none)
    (hbak : ∀ n ∈ payload.map Prod.fst, d (bakName n) = none) :
    ∃ m, (installEngine d gid fork version arch payload now none).2 = .ok m ∧
      (uninstallEngine (installEngine d gid fork version arch payload now none).1
        (some (componentTypeOf fork)) now2).2 = true ∧
      ∀ x, (uninstallEngine (installEngine d gid fork version arch payload now none).1
        (some (componentTypeOf fork)) now2).1 x = d x := by
  have hrm : readManifest d = none := readManifest_eq_none d hman
  obtain ⟨d', heq, hframe, hmem, hbakc⟩ :=
    installEngine_ok_spec d gid version now fork arch payload
      (freshManifest gid fork version arch now) harch hne hnd hdll (by rw [hrm]; rfl)
  set es := payload.map (entryOf (freshManifest gid fork version arch now).dlls d) with hes
  set M := instManifest (freshManifest gid fork version arch now) fork version now es with hM
  have hfst : (installEngine d gid fork version arch payload now none).1
      = writeManifest d' M := by rw [heq]
  have hsnd : (installEngine d gid fork version arch payload now none).2 = .ok M := by
    rw [heq]
  have hread : readManifest (writeManifest d' M) = some M := readManifest_write d' M
  have hMdlls : M.dlls = es := rfl
  have hes_names : es.map DeployedDll.name = payload.map Prod.fst := by
    rw [hes, List.map_map]
    exact List.map_congr_left (fun p _ => rfl)
  have hnd_es : (es.map DeployedDll.name).Nodup := by
    rw [hes_names]; exact hnd
  have hshape_es : ∀ e ∈ es, hasDllExt e.name ∧
      (e.backupPath = none ∨ e.backupPath = some (bakName e.name)) := by
    intro e he
    obtain ⟨p, hp, rfl⟩ := List.mem_map.mp he
    refine ⟨hdll p.1 (List.mem_map_of_mem Prod.fst hp), ?_⟩
    show (if recordsBak _ d p.1 then some (bakName p.1) else none) = none ∨
      (if recordsBak _ d p.1 then some (bakName p.1) else none) = some (bakName p.1)
    split
    · exact Or.inr rfl
    · exact Or.inl rfl
  have hfilter_rm : M.dlls.filter
      (fun e => isTargetOpt (some (componentTypeOf fork)) e.name) = es := by
    rw [hMdlls]
    refine List.filter_eq_self.mpr ?_
    intro e he
    obtain ⟨p, hp, rfl⟩ := List.mem_map.mp he
    exact hown p.1 (List.mem_map_of_mem Prod.fst hp)
  obtain ⟨rframe, rmem⟩ := removeFiles_spec es (writeManifest d' M) hnd_es hshape_es
  have hd1ne : ∀ m, m ≠ manifestName → writeManifest d' M m = d' m := by
    intro m hm
    rw [writeManifest]
    exact fwrite_ne d' _ hm
  have hconf : removeOwnedConf (removeFiles (writeManifest d' M) es) M
      = removeFiles (writeManifest d' M) es := by
    rw [removeOwnedConf, if_neg]
    intro hx
    have : M.configPath = some "dxvk.conf" := by
      have := (Bool.and_eq_true _ _).mp hx
      exact of_decide_eq_true this.2
    exact Option.noConfusion this
  have hunin : uninstallEngine (writeManifest d' M) (some (componentTypeOf fork)) now2
      = (fremove (removeFiles (writeManifest d' M) es) manifestName, true) := by
    rw [uninstallEngine_read_some (writeManifest d' M) M (some (componentTypeOf fork))
      now2 hread]
    show (if compsEmpty (eraseComp (setComp { dxvk := none, vkd3d := none }
        (componentTypeOf fork) { version := version, fork := fork })
        (componentTypeOf fork)) then _ else _) = _
    rw [eraseComp_setComp_empty]
    show (fremove (removeOwnedConf
      (removeFiles (writeManifest d' M)
        (M.dlls.filter (fun e => isTargetOpt (some (componentTypeOf fork)) e.name))) M)
      manifestName, true) = _
    rw [hfilter_rm, hconf]
  refine ⟨M, hsnd, ?_, ?_⟩
  · rw [hfst, hunin]
  · intro x
    rw [hfst, hunin]
    show fremove (removeFiles (writeManifest d' M) es) manifestName x = d x
    by_cases hx1 : x = manifestName
    · rw [hx1, fremove_at, hman]
    · rw [fremove_ne _ hx1]
      by_cases hx2 : x ∈ payload.map Prod.fst
      · obtain ⟨p, hp, rfl⟩ := List.mem_map.mp hx2
        have hpe : entryOf (freshManifest gid fork version arch now).dlls d p ∈ es :=
          List.mem_map_of_mem _ hp
        have hbakmem : d (bakName p.1) = none :=
          hbak p.1 (List.mem_map_of_mem Prod.fst hp)
        have hd1bak : writeManifest d' M (bakName p.1) = d p.1 := by
          rw [hd1ne _ (bakName_ne_manifestName p.1),
            hbakc p.1 (List.mem_map_of_mem Prod.fst hp)]
          rcases hdn : d p.1 with _ | v
          · rw [if_neg]
            · exact hbakmem
            · simp [renamedBak, hdn]
          · rw [if_pos]
            simp [renamedBak, hdn, hbakmem, trackedIn, freshManifest]
        have hnm : (entryOf (freshManifest gid fork version arch now).dlls d p).name = p.1 :=
          rfl
        have h1 := (rmem _ hpe).1
        rw [hnm] at h1
        rcases hdn : d p.1 with _ | v
        · have hbp : (entryOf (freshManifest gid fork version arch now).dlls d p).backupPath
              = none := by
            show (if recordsBak (freshManifest gid fork version arch now).dlls d p.1 then
              some (bakName p.1) else none) = none
            rw [if_neg]
            simp [recordsBak, hdn, hbakmem]
          have hcond : ¬((entryOf (freshManifest gid fork version arch now).dlls d p).backupPath
              = some (bakName p.1) ∧ (writeManifest d' M (bakName p.1)).isSome = true) := by
            intro hc
            rw [hbp] at hc
            exact Option.noConfusion hc.1
          rw [h1, if_neg hcond]
        · have hcond : (entryOf (freshManifest gid fork version arch now).dlls d p).backupPath
              = some (bakName p.1) ∧ (writeManifest d' M (bakName p.1)).isSome = true := by
            constructor
            · show (if recordsBak (freshManifest gid fork version arch now).dlls d p.1 then
                some (bakName p.1) else none) = some (bakName p.1)
              rw [if_pos]
              simp [recordsBak, hdn, hbakmem, trackedIn, freshManifest]
            · rw [hd1bak, hdn]
              rfl
          rw [h1, if_pos hcond, hd1bak]
          exact hdn
      · by_cases hx3 : ∃ n ∈ payload.map Prod.fst, x = bakName n
        · obtain ⟨n, hn, rfl⟩ := hx3
          obtain ⟨p, hp, rfl⟩ := List.mem_map.mp hn
          have hpe : entryOf (freshManifest gid fork version arch now).dlls d p ∈ es :=
            List.mem_map_of_mem _ hp
          have hbakmem : d (bakName p.1) = none := hbak p.1 hn
          have hd1bak : writeManifest d' M (bakName p.1) = d p.1 := by
            rw [hd1ne _ (bakName_ne_manifestName p.1), hbakc p.1 hn]
            rcases hdn : d p.1 with _ | v
            · rw [if_neg]
              · exact hbakmem
              · simp [renamedBak, hdn]
            · rw [if_pos]
              simp [renamedBak, hdn, hbakmem, trackedIn, freshManifest]
          have hnm : (entryOf (freshManifest gid fork version arch now).dlls d p).name
              = p.1 := rfl
          have h2 := (rmem _ hpe).2
          rw [hnm] at h2
          rw [h2]
          rcases hdn : d p.1 with _ | v
          · have hcond : ¬((entryOf (freshManifest gid fork version arch now).dlls d p).backupPath
                = some (bakName p.1) ∧ (writeManifest d' M (bakName p.1)).isSome = true) := by
              intro hc
              have h3 := hc.2
              rw [hd1bak, hdn] at h3
              simp at h3
            rw [if_neg hcond, hd1bak, hdn, hbakmem]
          · have hcond : (entryOf (freshManifest gid fork version arch now).dlls d p).backupPath
                = some (bakName p.1) ∧ (writeManifest d' M (bakName p.1)).isSome = true := by
              constructor
              · show (if recordsBak (freshManifest gid fork version arch now).dlls d p.1 then
                  some (bakName p.1) else none) = some (bakName p.1)
                rw [if_pos]
                simp [recordsBak, hdn, hbakmem, trackedIn, freshManifest]
              · rw [hd1bak, hdn]
                rfl
            rw [if_pos hcond, hbakmem]
        · have hfr : ∀ e ∈ es, x ≠ e.name ∧ x ≠ bakName e.name := by
            intro e he
            obtain ⟨p, hp, rfl⟩ := List.mem_map.mp he
            constructor
            · intro hx
              exact hx2 (hx ▸ List.mem_map_of_mem Prod.fst hp)
            · intro hx
              exact hx3 ⟨p.1, List.mem_map_of_mem Prod.fst hp, hx⟩
          rw [rframe x hfr, hd1ne x hx1]
          refine hframe x hx2 ?_
          intro n hn hx
          exact hx3 ⟨n, hn, hx⟩

/-- C1 witness: the roundtrip applied to the specification's concrete
scenario (§8): a directory holding a third-party `foo.dll`. -/
theorem install_uninstall_roundtrip_app :
    ∃ m, (installEngine exDir "g" .official "2.7" .a64
        [("foo.dll", exNew)] "t1" none).2 = .ok m ∧
      (uninstallEngine (installEngine exDir "g" .official "2.7" .a64
        [("foo.dll", exNew)] "t1" none).1 (some (componentTypeOf .official)) "t2").2 = true ∧
      ∀ x, (uninstallEngine (installEngine exDir "g" .official "2.7" .a64
        [("foo.dll", exNew)] "t1" none).1 (some (componentTypeOf .official)) "t2").1 x
        = exDir x :=
  install_uninstall_roundtrip exDir "g" "2.7" "t1" "t2" .official .a64
    [("foo.dll", exNew)] (by decide) (by decide) (by decide)
    (by
      intro n hn
      rcases List.mem_cons.mp hn with rfl | h
      · exact ⟨"foo", rfl⟩
      · cases h)
    (by decide) rfl
    (by
      intro n hn
      rcases List.mem_cons.mp hn with rfl | h
      · rfl
      · cases h)

/-- C1 counterexample: with a stale `foo.dll.bak_dxvk_studio` already in
the directory, install-then-uninstall does not restore `foo.dll`: the
original bytes are replaced by the stale backup's bytes. -/
theorem roundtrip_stale_backup_cex :
    exDirStale "foo.dll" = some exOriginal ∧
    readManifest exDirStale = none ∧
    (uninstallEngine (installEngine exDirStale "g" .official "2.7" .a64
        [("foo.dll", exNew)] "t1" none).1 (some .dxvk) "t2").1 "foo.dll" = some exStale ∧
    exStale ≠ exOriginal := by
  refine ⟨rfl, rfl, by decide, by decide⟩

/-- C2 (amended): during `installEngine`, a payload target that already
exists and is untracked is renamed aside to the fixed backup name only
when no file with that backup name already exists; when a file with the
backup name is already present, the pre-existing target is overwritten
and the old backup file is kept untouched (no new backup of the
pre-existing file is taken). -/
theorem backup_before_overwrite
    (d : Dir) (gid version now : String) (fork : DxvkFork) (arch : Arch)
    (payload : List (String × FileData)) (p : String × FileData) (m0 : Manifest)
    (harch : arch ≠ .unknown) (hne : payload ≠ [])
    (hnd : (payload.map Prod.fst).Nodup)
    (hdll : ∀ n ∈ payload.map Prod.fst, hasDllExt n)
    (hm0 : m0 = (readManifest d).getD (freshManifest gid fork version arch now))
    (hp : p ∈ payload)
    (huntracked : trackedIn m0.dlls p.1 = false) :
    (installEngine d gid fork version arch payload now none).1 p.1 = some p.2 ∧
    (d (bakName p.1) = none → (d p.1).isSome = true →
      (installEngine d gid fork version arch payload now none).1 (bakName p.1) = d p.1) ∧
    ((d (bakName p.1)).isSome = true →
      (installEngine d gid fork version arch payload now none).1 (bakName p.1)
        = d (bakName p.1)) := by
  obtain ⟨d', heq, hframe, hmem, hbakc⟩ :=
    installEngine_ok_spec d gid version now fork arch payload m0 harch hne hnd hdll hm0
  have hfst : (installEngine d gid fork version arch payload now none).1
      = writeManifest d'
        (instManifest m0 fork version now (payload.map (entryOf m0.dlls d))) := by
    rw [heq]
  have hdlle : hasDllExt p.1 := hdll p.1 (List.mem_map_of_mem Prod.fst hp)
  have hmemn : p.1 ∈ payload.map Prod.fst := List.mem_map_of_mem Prod.fst hp
  refine ⟨?_, ?_, ?_⟩
  · rw [hfst, writeManifest, fwrite_ne d' _ (hasDllExt_ne_manifestName hdlle)]
    exact hmem p hp
  · intro hb ht
    rw [hfst, writeManifest, fwrite_ne d' _ (bakName_ne_manifestName p.1), hbakc p.1 hmemn,
      if_pos]
    simp [renamedBak, ht, hb, huntracked]
  · intro hb
    rw [hfst, writeManifest, fwrite_ne d' _ (bakName_ne_manifestName p.1), hbakc p.1 hmemn,
      if_neg]
    simp [renamedBak, hb]

/-- C2 witness: with no manifest and no stale backup, the pre-existing
`foo.dll` is renamed aside and the payload copied into place. -/
theorem backup_before_overwrite_app :
    (installEngine exDir "g" .official "2.7" .a64
        [("foo.dll", exNew)] "t" none).1 "foo.dll" = some exNew ∧
    (exDir (bakName "foo.dll") = none → (exDir "foo.dll").isSome = true →
      (installEngine exDir "g" .official "2.7" .a64
        [("foo.dll", exNew)] "t" none).1 (bakName "foo.dll") = exDir "foo.dll") ∧
    ((exDir (bakName "foo.dll")).isSome = true →
      (installEngine exDir "g" .official "2.7" .a64
        [("foo.dll", exNew)] "t" none).1 (bakName "foo.dll")
          = exDir (bakName "foo.dll")) :=
  backup_before_overwrite exDir "g" "2.7" "t" .official .a64
    [("foo.dll", exNew)] ("foo.dll", exNew)
    (freshManifest "g" .official "2.7" .a64 "t")
    (by decide) (by decide) (by decide)
    (by
      intro n hn
      rcases List.mem_cons.mp hn with rfl | h
      · exact ⟨"foo", rfl⟩
      · cases h)
    rfl (List.mem_singleton.mpr rfl) (by decide)

/-- C2 counterexample: a leftover backup file of the same name blocks
the rename: the pre-existing untracked `foo.dll` (bytes `exOriginal`) is
silently overwritten, and the fixed backup name still holds the stale
bytes rather than the pre-existing file's bytes. -/
theorem backup_skipped_when_stale_cex :
    exDirStale "foo.dll" = some exOriginal ∧
    readManifest exDirStale = none ∧
    (installEngine exDirStale "g" .official "2.7" .a64
        [("foo.dll", exNew)] "t" none).1 "foo.dll" = some exNew ∧
    (installEngine exDirStale "g" .official "2.7" .a64
        [("foo.dll", exNew)] "t" none).1 (bakName "foo.dll") = some exStale ∧
    exStale ≠ exOriginal := by
  refine ⟨rfl, rfl, by decide, by decide, by decide⟩

/-! ### Claim C9: faults in the per-file loop leave the manifest untouched -/

theorem installFiles_cons_eq (orig : List DeployedDll) (failAt : Option Nat) (j : Nat)
    (d : Dir) (n : String) (c : FileData) (rest : List (String × FileData)) :
    installFiles orig failAt j d ((n, c) :: rest) =
      (let d1 :=
        if (d n).isSome then
          if !(d (bakName n)).isSome && !trackedIn orig n then frename d n (bakName n) else d
        else d
       if failAt = some j then
         (d1, .error ("EIO: copy failed, copyfile -> " ++ n))
       else
         let d2 := fwrite d1 n c
         let entry : DeployedDll :=
           { name := n
             hash := hashInDir d2 n
             backupPath := if (d2 (bakName n)).isSome then some (bakName n) else none }
         let res := installFiles orig failAt (j + 1) d2 rest
         (res.1, match res.2 with
           | .ok es => .ok (entry :: es)
           | .error e => .error e)) := rfl

theorem installFiles_fail_spec (orig : List DeployedDll)
    (payload : List (String × FileData)) :
    ∀ (j : Nat) (d : Dir) (i : Nat),
    j ≤ i → i < j + payload.length →
    (payload.map Prod.fst).Nodup →
    (∀ n ∈ payload.map Prod.fst, hasDllExt n) →
    ∃ d' e,
      installFiles orig (some i) j d payload = (d', .error e) ∧
      (∀ m, m ∉ payload.map Prod.fst →
        (∀ n ∈ payload.map Prod.fst, m ≠ bakName n) → d' m = d m) ∧
      (∀ p ∈ payload.take (i - j), d' p.1 = some p.2) := by
  induction payload with
  | nil =>
    intro j d i h1 h2 _ _
    simp only [List.length_nil] at h2
    omega
  | cons q rest ih =>
    obtain ⟨n, c⟩ := q
    intro j d i hji hilt hnd hdll
    have hnotin : n ∉ rest.map Prod.fst := by
      simp only [List.map_cons, List.nodup_cons] at hnd
      exact hnd.1
    have hnd' : (rest.map Prod.fst).Nodup := by
      simp only [List.map_cons, List.nodup_cons] at hnd
      exact hnd.2
    have hdn : hasDllExt n := hdll n (by simp)
    have hdll' : ∀ m ∈ rest.map Prod.fst, hasDllExt m := by
      intro m hm
      exact hdll m (by simp [hm])
    set d1 := (if (d n).isSome then
        if !(d (bakName n)).isSome && !trackedIn orig n then frename d n (bakName n) else d
      else d) with hd1
    have hF1 : ∀ m, m ≠ n → m ≠ bakName n → d1 m = d m := by
      intro m hm1 hm2
      rw [hd1]
      split
      · split
        · exact frename_ne d hm2 hm1
        · rfl
      · rfl
    by_cases hij : i = j
    · refine ⟨d1, "EIO: copy failed, copyfile -> " ++ n, ?_, ?_, ?_⟩
      · rw [installFiles_cons_eq]
        simp only [← hd1]
        rw [if_pos (by rw [hij])]
      · intro m hm hmb
        have hmn : m ≠ n := fun he => hm (by simp [he])
        have hmbn : m ≠ bakName n := hmb n (by simp)
        exact hF1 m hmn hmbn
      · intro p hp
        rw [show i - j = 0 from by omega] at hp
        simp at hp
    · have hji' : j + 1 ≤ i := by omega
      have hilt' : i < (j + 1) + rest.length := by
        simp only [List.length_cons] at hilt
        omega
      obtain ⟨d', e, heq, hframe, htake⟩ := ih (j + 1) (fwrite d1 n c) i hji' hilt' hnd' hdll'
      refine ⟨d', e, ?_, ?_, ?_⟩
      · rw [installFiles_cons_eq]
        simp only [← hd1]
        rw [if_neg (by simp [Ne.symm]; omega), heq]
      · intro m hm hmb
        have hmn : m ≠ n := fun he => hm (by simp [he])
        have hmbn : m ≠ bakName n := hmb n (by simp)
        have hm' : m ∉ rest.map Prod.fst := fun hx => hm (by simp [hx])
        have hmb' : ∀ n' ∈ rest.map Prod.fst, m ≠ bakName n' := by
          intro n' hn'
          exact hmb n' (by simp [hn'])
        rw [hframe m hm' hmb', fwrite_ne d1 c hmn, hF1 m hmn hmbn]
      · intro p hp
        rw [show i - j = (i - (j + 1)) + 1 from by omega, List.take_succ_cons] at hp
        rcases List.mem_cons.mp hp with rfl | hp
        · have h1 : n ∉ rest.map Prod.fst := hnotin
          have h2 : ∀ n' ∈ rest.map Prod.fst, n ≠ bakName n' := by
            intro n' _
            exact hasDllExt_ne_bak hdn n'
          show d' n = some c
          rw [hframe n h1 h2, fwrite_at]
        · exact htake p hp

/-- C9: when any per-file step of the install loop fails (modelled as a
thrown copy error at the i-th payload file), `installEngine` propagates
the error and the manifest file on disk is exactly as before the call;
the files already copied earlier in the same call remain in place (no
rollback). -/
theorem manifest_written_after_files
    (d : Dir) (gid version now : String) (fork : DxvkFork) (arch : Arch)
    (payload : List (String × FileData)) (i : Nat)
    (harch : arch ≠ .unknown)
    (hnd : (payload.map Prod.fst).Nodup)
    (hdll : ∀ n ∈ payload.map Prod.fst, hasDllExt n)
    (hi : i < payload.length) :
    ∃ e, (installEngine d gid fork version arch payload now (some i)).2 = .error e ∧
      (installEngine d gid fork version arch payload now (some i)).1 manifestName
        = d manifestName ∧
      ∀ p ∈ payload.take i,
        (installEngine d gid fork version arch payload now (some i)).1 p.1 = some p.2 := by
  have hne : payload ≠ [] := by
    intro h
    rw [h] at hi
    exact absurd hi (by simp)
  have hpe : payload.isEmpty = false := by
    cases payload with
    | nil => exact absurd rfl hne
    | cons p r => rfl
  obtain ⟨d', e, heq, hframe, htake⟩ :=
    installFiles_fail_spec
      ((readManifest d).getD (freshManifest gid fork version arch now)).dlls
      payload 0 d i (Nat.zero_le i) (by simpa using hi) hnd hdll
  have hrun : installEngine d gid fork version arch payload now (some i)
      = (d', .error e) := by
    rw [installEngine, if_neg harch, if_neg (by simp [hpe])]
    simp only [heq]
  refine ⟨e, by rw [hrun], ?_, ?_⟩
  · rw [hrun]
    refine hframe manifestName ?_ ?_
    · intro hmem'
      exact hasDllExt_ne_manifestName (hdll _ hmem') rfl
    · intro n' _ hx
      exact bakName_ne_manifestName n' hx.symm
  · intro p hp
    rw [hrun]
    exact htake p hp

/-- C9 witness: a two-file payload whose second copy fails — the error
propagates, the manifest slot is untouched, and the first file is in
place. -/
theorem manifest_written_after_files_app :
    ∃ e, (installEngine exDir "g" .official "2.7" .a64
        [("d3d9.dll", exNew), ("dxgi.dll", exStale)] "t" (some 1)).2 = .error e ∧
      (installEngine exDir "g" .official "2.7" .a64
        [("d3d9.dll", exNew), ("dxgi.dll", exStale)] "t" (some 1)).1 manifestName
        = exDir manifestName ∧
      ∀ p ∈ [("d3d9.dll", exNew), ("dxgi.dll", exStale)].take 1,
        (installEngine exDir "g" .official "2.7" .a64
          [("d3d9.dll", exNew), ("dxgi.dll", exStale)] "t" (some 1)).1 p.1 = some p.2 :=
  manifest_written_after_files exDir "g" "2.7" "t" .official .a64
    [("d3d9.dll", exNew), ("dxgi.dll", exStale)] 1 (by decide) (by decide)
    (by
      intro n hn
      rcases List.mem_cons.mp hn with rfl | hn
      · exact ⟨"d3d9", rfl⟩
      · rcases List.mem_cons.mp hn with rfl | hn
        · exact ⟨"dxgi", rfl⟩
        · cases hn)
    (by decide)

/-! ### Claim C5: idempotent re-install -/

theorem setComp_setComp (cs : Components) (c : Component) (i : ComponentInfo) :
    setComp (setComp cs c i) c i = setComp cs c i := by
  cases c <;> rfl

/-- C5: installing the same (family, version, architecture) twice in a
row with the same payload produces the same manifest (same DeployedFile
list) and leaves the directory exactly as after the first install — in
particular no second backup file is created for any filename. -/
theorem reinstall_idempotent
    (d : Dir) (gid version now : String) (fork : DxvkFork) (arch : Arch)
    (payload : List (String × FileData))
    (harch : arch ≠ .unknown) (hne : payload ≠ [])
    (hnd : (payload.map Prod.fst).Nodup)
    (hdll : ∀ n ∈ payload.map Prod.fst, hasDllExt n)
    (hown : ∀ n ∈ payload.map Prod.fst, isTargetName (componentTypeOf fork) n = true) :
    ∃ m1, (installEngine d gid fork version arch payload now none).2 = .ok m1 ∧
      installEngine (installEngine d gid fork version arch payload now none).1
        gid fork version arch payload now none
        = ((installEngine d gid fork version arch payload now none).1, .ok m1) := by
  obtain ⟨d', heq1, hframe1, hmem1, hbakc1⟩ :=
    installEngine_ok_spec d gid version now fork arch payload
      ((readManifest d).getD (freshManifest gid fork version arch now))
      harch hne hnd hdll rfl
  set m0 := (readManifest d).getD (freshManifest gid fork version arch now) with hm0
  set es1 := payload.map (entryOf m0.dlls d) with hes1
  set M1 := instManifest m0 fork version now es1 with hM1
  have hd1read : readManifest (writeManifest d' M1) = some M1 := readManifest_write d' M1
  obtain ⟨d'', heq2, hframe2, hmem2, hbakc2⟩ :=
    installEngine_ok_spec (writeManifest d' M1) gid version now fork arch payload M1
      harch hne hnd hdll (by rw [hd1read]; rfl)
  set es2 := payload.map (entryOf M1.dlls (writeManifest d' M1)) with hes2
  have hd1ne : ∀ m, m ≠ manifestName → writeManifest d' M1 m = d' m := by
    intro m hm
    rw [writeManifest]
    exact fwrite_ne d' _ hm
  have htr : ∀ n ∈ payload.map Prod.fst, trackedIn M1.dlls n = true := by
    intro n hn
    obtain ⟨p, hp, rfl⟩ := List.mem_map.mp hn
    rw [trackedIn, List.any_eq_true]
    refine ⟨entryOf m0.dlls d p, ?_, by simp [entryOf]⟩
    show entryOf m0.dlls d p ∈
      m0.dlls.filter (fun e => !isTargetName (componentTypeOf fork) e.name) ++ es1
    exact List.mem_append_right _ (List.mem_map_of_mem _ hp)
  have hbak1 : ∀ n ∈ payload.map Prod.fst, writeManifest d' M1 (bakName n)
      = (if renamedBak m0.dlls d n then d n else d (bakName n)) := by
    intro n hn
    rw [hd1ne _ (bakName_ne_manifestName n)]
    exact hbakc1 n hn
  have hrec : ∀ p ∈ payload,
      recordsBak M1.dlls (writeManifest d' M1) p.1 = recordsBak m0.dlls d p.1 := by
    intro p hp
    have hmm : p.1 ∈ payload.map Prod.fst := List.mem_map_of_mem Prod.fst hp
    rw [recordsBak, recordsBak, htr p.1 hmm, hbak1 p.1 hmm]
    simp only [Bool.not_true, Bool.and_false, Bool.or_false]
    rcases hr : renamedBak m0.dlls d p.1 with _ | _
    · rw [if_neg (by simp [hr])]
      rcases hb : (d (bakName p.1)).isSome with _ | _
      · rw [renamedBak, hb] at hr
        simp only [Bool.not_false, Bool.and_true] at hr
        simp [hb, hr]
      · simp [hb]
    · rw [if_pos (by simp [hr])]
      rw [renamedBak] at hr
      simp only [Bool.and_eq_true, Bool.not_eq_true'] at hr
      simp [hr.1.1, hr.1.2, hr.2]
  have hes21 : es2 = es1 := by
    rw [hes2, hes1]
    refine List.map_congr_left ?_
    intro p hp
    rw [entryOf, entryOf, hrec p hp]
  have hflt2 : es1.filter (fun e => !isTargetName (componentTypeOf fork) e.name) = [] := by
    refine List.filter_eq_nil_iff.mpr ?_
    intro e he
    obtain ⟨p, hp, rfl⟩ := List.mem_map.mp he
    simp [entryOf, hown p.1 (List.mem_map_of_mem Prod.fst hp)]
  have hM2M1 : instManifest M1 fork version now es2 = M1 := by
    rw [hes21, hM1]
    show instManifest (instManifest m0 fork version now es1) fork version now es1
      = instManifest m0 fork version now es1
    simp only [instManifest]
    congr 1
    · rw [List.filter_append,
        List.filter_eq_self.mpr (fun a ha => (List.mem_filter.mp ha).2),
        hflt2, List.append_nil]
    · show some (setComp (setComp (migrateComps m0) (componentTypeOf fork)
        { version := version, fork := fork }) (componentTypeOf fork)
        { version := version, fork := fork }) = _
      rw [setComp_setComp]
  have hx : ∀ x, writeManifest d'' (instManifest M1 fork version now es2) x
      = writeManifest d' M1 x := by
    intro x
    by_cases hx1 : x = manifestName
    · rw [hx1, writeManifest, writeManifest, fwrite_at, fwrite_at, hM2M1]
    · rw [writeManifest, fwrite_ne d'' _ hx1]
      by_cases hx2 : x ∈ payload.map Prod.fst
      · obtain ⟨p, hp, rfl⟩ := List.mem_map.mp hx2
        rw [hmem2 p hp, hd1ne p.1 hx1]
        exact (hmem1 p hp).symm
      · by_cases hx3 : ∃ n ∈ payload.map Prod.fst, x = bakName n
        · obtain ⟨n, hn, rfl⟩ := hx3
          rw [hbakc2 n hn, if_neg (by simp [renamedBak, htr n hn])]
        · rw [hframe2 x hx2 (fun n hn hx => hx3 ⟨n, hn, hx⟩)]
  refine ⟨M1, by rw [heq1], ?_⟩
  rw [heq1]
  show installEngine (writeManifest d' M1) gid fork version arch payload now none
    = (writeManifest d' M1, .ok M1)
  rw [heq2, hM2M1]
  have hde : writeManifest d'' (instManifest M1 fork version now es2)
      = writeManifest d' M1 := funext hx
  rw [hM2M1] at hde
  rw [hde]

/-! ### Claim C6: family isolation -/

theorem isTargetName_other {c c' : Component} (h : c ≠ c') {n : String}
    (ho : isTargetName c n = true) : isTargetName c' n = false := by
  cases c <;> cases c' <;> simp_all [isTargetName]

theorem getComp_setComp (cs : Components) (c : Component) (i : ComponentInfo) :
    getComp (setComp cs c i) c = some i := by
  cases c <;> rfl

theorem eraseComp_other {cA cB : Component} (h : cA ≠ cB) (iA iB : ComponentInfo) :
    eraseComp (setComp (setComp { dxvk := none, vkd3d := none } cA iA) cB iB) cA
      = setComp { dxvk := none, vkd3d := none } cB iB := by
  cases cA <;> cases cB
  · exact absurd rfl h
  · rfl
  · rfl
  · exact absurd rfl h

theorem compsEmpty_setComp (cB : Component) (iB : ComponentInfo) :
    compsEmpty (setComp { dxvk := none, vkd3d := none } cB iB) = false := by
  cases cB <;> rfl

theorem getComp_none (c : Component) :
    getComp { dxvk := none, vkd3d := none } c = none := by
  cases c <;> rfl

theorem getComp_setComp_ne (cs : Components) {c c' : Component} (h : c' ≠ c)
    (i : ComponentInfo) : getComp (setComp cs c i) c' = getComp cs c' := by
  cases c <;> cases c'
  · exact absurd rfl h
  · rfl
  · rfl
  · exact absurd rfl h

theorem checkLoop_ok_of (d : Dir) (l : List DeployedDll)
    (h : ∀ e ∈ l, ∃ c, d e.name = some c ∧ hashData c = e.hash) :
    checkLoop d l = .ok := by
  induction l with
  | nil => rfl
  | cons e rest ih =>
    obtain ⟨c, hc, hh⟩ := h e (by simp)
    rw [checkLoop, hc]
    show (if hashData c ≠ e.hash then IntegrityStatus.corrupt else checkLoop d rest)
      = IntegrityStatus.ok
    rw [if_neg (by simp [hh])]
    exact ih (fun e' he' => h e' (by simp [he']))

theorem entry_names (o : List DeployedDll) (d : Dir)
    (payload : List (String × FileData)) :
    (payload.map (entryOf o d)).map DeployedDll.name = payload.map Prod.fst := by
  rw [List.map_map]
  exact List.map_congr_left (fun p _ => rfl)

theorem entry_shape (o : List DeployedDll) (d : Dir)
    (payload : List (String × FileData))
    (hdll : ∀ n ∈ payload.map Prod.fst, hasDllExt n) :
    ∀ e ∈ payload.map (entryOf o d), hasDllExt e.name ∧
      (e.backupPath = none ∨ e.backupPath = some (bakName e.name)) := by
  intro e he
  obtain ⟨p, hp, rfl⟩ := List.mem_map.mp he
  refine ⟨hdll p.1 (List.mem_map_of_mem Prod.fst hp), ?_⟩
  show (if recordsBak o d p.1 then some (bakName p.1) else none) = none ∨
    (if recordsBak o d p.1 then some (bakName p.1) else none) = some (bakName p.1)
  split
  · exact Or.inr rfl
  · exact Or.inl rfl

theorem checkIntegrity_read_some (d : Dir) (M : Manifest) (comp : Option Component)
    (h : readManifest d = some M) :
    checkIntegrity d comp =
      (let targetDlls := M.dlls.filter (fun e => isTargetOpt comp e.name)
       if comp.isSome && targetDlls.isEmpty then .not_installed
       else checkLoop d targetDlls) := by
  rw [checkIntegrity, h]

/-- C6: installing family A, then family B, into the same directory and
uninstalling only A returns `true` and leaves everything of B intact:
B's installed files and backup files are byte-for-byte unchanged, and
the rewritten manifest — whose `components` record has A's key deleted —
still carries B's per-family record with the same value as before and
exactly B's DeployedFile entries; `checkIntegrity` scoped to B still
reports `ok`. -/
theorem family_isolation
    (d : Dir) (gid vA vB now1 now2 now3 : String) (forkA forkB : DxvkFork)
    (archA archB : Arch) (pA pB : List (String × FileData))
    (hA : archA ≠ .unknown) (hB : archB ≠ .unknown)
    (hneA : pA ≠ []) (hneB : pB ≠ [])
    (hndA : (pA.map Prod.fst).Nodup) (hndB : (pB.map Prod.fst).Nodup)
    (hdllA : ∀ n ∈ pA.map Prod.fst, hasDllExt n)
    (hdllB : ∀ n ∈ pB.map Prod.fst, hasDllExt n)
    (hownA : ∀ n ∈ pA.map Prod.fst, isTargetName (componentTypeOf forkA) n = true)
    (hownB : ∀ n ∈ pB.map Prod.fst, isTargetName (componentTypeOf forkB) n = true)
    (hdiff : componentTypeOf forkA ≠ componentTypeOf forkB)
    (hman : d manifestName = none) :
    ∃ m2 mB,
      (installEngine (installEngine d gid forkA vA archA pA now1 none).1
        gid forkB vB archB pB now2 none).2 = .ok m2 ∧
      (uninstallEngine (installEngine (installEngine d gid forkA vA archA pA now1 none).1
        gid forkB vB archB pB now2 none).1 (some (componentTypeOf forkA)) now3).2 = true ∧
      readManifest (uninstallEngine
        (installEngine (installEngine d gid forkA vA archA pA now1 none).1
          gid forkB vB archB pB now2 none).1
        (some (componentTypeOf forkA)) now3).1 = some mB ∧
      (∃ cs cs2, mB.components = some cs ∧ m2.components = some cs2 ∧
        getComp cs (componentTypeOf forkB) = getComp cs2 (componentTypeOf forkB) ∧
        getComp cs (componentTypeOf forkB) = some { version := vB, fork := forkB } ∧
        getComp cs (componentTypeOf forkA) = none) ∧
      mB.dlls = m2.dlls.filter (fun e => isTargetName (componentTypeOf forkB) e.name) ∧
      (∀ p ∈ pB, (uninstallEngine
        (installEngine (installEngine d gid forkA vA archA pA now1 none).1
          gid forkB vB archB pB now2 none).1 (some (componentTypeOf forkA)) now3).1 p.1
        = (installEngine (installEngine d gid forkA vA archA pA now1 none).1
          gid forkB vB archB pB now2 none).1 p.1) ∧
      (∀ n ∈ pB.map Prod.fst, (uninstallEngine
        (installEngine (installEngine d gid forkA vA archA pA now1 none).1
          gid forkB vB archB pB now2 none).1 (some (componentTypeOf forkA)) now3).1
          (bakName n)
        = (installEngine (installEngine d gid forkA vA archA pA now1 none).1
          gid forkB vB archB pB now2 none).1 (bakName n)) ∧
      checkIntegrity (uninstallEngine
        (installEngine (installEngine d gid forkA vA archA pA now1 none).1
          gid forkB vB archB pB now2 none).1 (some (componentTypeOf forkA)) now3).1
        (some (componentTypeOf forkB)) = .ok := by
  obtain ⟨dA, heqA, hframeA, hmemA, hbakA⟩ :=
    installEngine_ok_spec d gid vA now1 forkA archA pA
      (freshManifest gid forkA vA archA now1) hA hneA hndA hdllA
      (by rw [readManifest_eq_none d hman]; rfl)
  set esA := pA.map (entryOf (freshManifest gid forkA vA archA now1).dlls d) with hesA
  set MA := instManifest (freshManifest gid forkA vA archA now1) forkA vA now1 esA with hMA
  have h1 : (installEngine d gid forkA vA archA pA now1 none).1 = writeManifest dA MA := by
    rw [heqA]
  obtain ⟨dB, heqB, hframeB, hmemB, hbakB⟩ :=
    installEngine_ok_spec (writeManifest dA MA) gid vB now2 forkB archB pB MA
      hB hneB hndB hdllB (by rw [readManifest_write]; rfl)
  set esB := pB.map (entryOf MA.dlls (writeManifest dA MA)) with hesB
  set MB2 := instManifest MA forkB vB now2 esB with hMB2
  have h2 : (installEngine (installEngine d gid forkA vA archA pA now1 none).1
      gid forkB vB archB pB now2 none) = (writeManifest dB MB2, .ok MB2) := by
    rw [h1, heqB]
  have hownA' : ∀ e ∈ esA, isTargetName (componentTypeOf forkA) e.name = true := by
    intro e he
    obtain ⟨p, hp, rfl⟩ := List.mem_map.mp he
    exact hownA p.1 (List.mem_map_of_mem Prod.fst hp)
  have hownB' : ∀ e ∈ esB, isTargetName (componentTypeOf forkB) e.name = true := by
    intro e he
    obtain ⟨p, hp, rfl⟩ := List.mem_map.mp he
    exact hownB p.1 (List.mem_map_of_mem Prod.fst hp)
  have hAnotB : ∀ e ∈ esA, isTargetName (componentTypeOf forkB) e.name = false :=
    fun e he => isTargetName_other hdiff (hownA' e he)
  have hBnotA : ∀ e ∈ esB, isTargetName (componentTypeOf forkA) e.name = false :=
    fun e he => isTargetName_other hdiff.symm (hownB' e he)
  have hm2dlls : MB2.dlls = esA ++ esB := by
    show esA.filter (fun e => !isTargetName (componentTypeOf forkB) e.name) ++ esB
      = esA ++ esB
    congr 1
    exact List.filter_eq_self.mpr (fun a ha => by simp [hAnotB a ha])
  have hreadB : readManifest (writeManifest dB MB2) = some MB2 := readManifest_write dB MB2
  have hrm_filter : MB2.dlls.filter
      (fun e => isTargetOpt (some (componentTypeOf forkA)) e.name) = esA := by
    rw [hm2dlls, List.filter_append]
    have hx1 : esA.filter (fun e => isTargetOpt (some (componentTypeOf forkA)) e.name)
        = esA := List.filter_eq_self.mpr (fun a ha => hownA' a ha)
    have hx2 : esB.filter (fun e => isTargetOpt (some (componentTypeOf forkA)) e.name)
        = [] := List.filter_eq_nil_iff.mpr (fun e he => by
          show ¬(isTargetName (componentTypeOf forkA) e.name = true)
          simp [hBnotA e he])
    rw [hx1, hx2, List.append_nil]
  have hkeep : MB2.dlls.filter
      (fun e => !isTargetOpt (some (componentTypeOf forkA)) e.name) = esB := by
    rw [hm2dlls, List.filter_append]
    have hx1 : esA.filter (fun e => !isTargetOpt (some (componentTypeOf forkA)) e.name)
        = [] := List.filter_eq_nil_iff.mpr (fun e he => by
          show ¬((!isTargetName (componentTypeOf forkA) e.name) = true)
          simp [hownA' e he])
    have hx2 : esB.filter (fun e => !isTargetOpt (some (componentTypeOf forkA)) e.name)
        = esB := List.filter_eq_self.mpr (fun a ha => by
          show (!isTargetName (componentTypeOf forkA) a.name) = true
          simp [hBnotA a ha])
    rw [hx1, hx2, List.nil_append]
  have hndesA : (esA.map DeployedDll.name).Nodup := by
    rw [hesA, entry_names]
    exact hndA
  obtain ⟨rframe, rmem⟩ := removeFiles_spec esA (writeManifest dB MB2) hndesA
    (by rw [hesA]; exact entry_shape _ d pA hdllA)
  have hunin : uninstallEngine (writeManifest dB MB2) (some (componentTypeOf forkA)) now3
      = (writeManifest (removeFiles (writeManifest dB MB2) esA)
          { MB2 with components := some (setComp { dxvk := none, vkd3d := none } (componentTypeOf forkB) { version := vB, fork := forkB }), dlls := esB, installedAt := now3 }, true) := by
    rw [uninstallEngine_read_some _ MB2 _ _ hreadB]
    show (if compsEmpty (eraseComp (setComp (setComp { dxvk := none, vkd3d := none }
        (componentTypeOf forkA) { version := vA, fork := forkA }) (componentTypeOf forkB)
        { version := vB, fork := forkB }) (componentTypeOf forkA)) then
        (fremove (removeOwnedConf (removeFiles (writeManifest dB MB2)
          (MB2.dlls.filter (fun e => isTargetOpt (some (componentTypeOf forkA)) e.name)))
          MB2) manifestName, true)
      else
        (writeManifest (removeFiles (writeManifest dB MB2)
          (MB2.dlls.filter (fun e => isTargetOpt (some (componentTypeOf forkA)) e.name)))
          { MB2 with
              components := some (eraseComp (setComp (setComp
                { dxvk := none, vkd3d := none } (componentTypeOf forkA)
                { version := vA, fork := forkA }) (componentTypeOf forkB)
                { version := vB, fork := forkB }) (componentTypeOf forkA))
              dlls := MB2.dlls.filter
                (fun e => !isTargetOpt (some (componentTypeOf forkA)) e.name)
              installedAt := now3 }, true)) = _
    rw [eraseComp_other hdiff, compsEmpty_setComp]
    show (writeManifest (removeFiles (writeManifest dB MB2)
        (MB2.dlls.filter (fun e => isTargetOpt (some (componentTypeOf forkA)) e.name)))
        { MB2 with
            components := some (setComp { dxvk := none, vkd3d := none }
              (componentTypeOf forkB) { version := vB, fork := forkB })
            dlls := MB2.dlls.filter
              (fun e => !isTargetOpt (some (componentTypeOf forkA)) e.name)
            installedAt := now3 }, true) = _
    rw [hrm_filter, hkeep]
  have hdisj : ∀ nB ∈ pB.map Prod.fst, ∀ nA ∈ pA.map Prod.fst, nB ≠ nA := by
    intro nB hnB nA hnA he
    have hx1 := hownA nA hnA
    rw [← he] at hx1
    have hx2 := isTargetName_other hdiff hx1
    rw [hownB nB hnB] at hx2
    exact Bool.noConfusion hx2
  have hfrB : ∀ n ∈ pB.map Prod.fst,
      (∀ e ∈ esA, n ≠ e.name ∧ n ≠ bakName e.name) := by
    intro n hn e he
    obtain ⟨p, hp, rfl⟩ := List.mem_map.mp he
    constructor
    · exact hdisj n hn p.1 (List.mem_map_of_mem Prod.fst hp)
    · exact hasDllExt_ne_bak (hdllB n hn) p.1
  have hfrBbak : ∀ n ∈ pB.map Prod.fst,
      (∀ e ∈ esA, bakName n ≠ e.name ∧ bakName n ≠ bakName e.name) := by
    intro n hn e he
    obtain ⟨p, hp, rfl⟩ := List.mem_map.mp he
    constructor
    · exact fun hx =>
        (hasDllExt_ne_bak (hdllA p.1 (List.mem_map_of_mem Prod.fst hp)) n) hx.symm
    · exact fun hx =>
        (hdisj n hn p.1 (List.mem_map_of_mem Prod.fst hp)) (bakName_inj hx)
  have hfiles : ∀ p ∈ pB,
      writeManifest (removeFiles (writeManifest dB MB2) esA)
        { MB2 with components := some (setComp { dxvk := none, vkd3d := none } (componentTypeOf forkB) { version := vB, fork := forkB }), dlls := esB, installedAt := now3 } p.1
      = writeManifest dB MB2 p.1 := by
    intro p hp
    have hnm : p.1 ≠ manifestName :=
      hasDllExt_ne_manifestName (hdllB p.1 (List.mem_map_of_mem Prod.fst hp))
    rw [writeManifest, fwrite_ne _ _ hnm]
    exact rframe p.1 (hfrB p.1 (List.mem_map_of_mem Prod.fst hp))
  have hbaks : ∀ n ∈ pB.map Prod.fst,
      writeManifest (removeFiles (writeManifest dB MB2) esA)
        { MB2 with components := some (setComp { dxvk := none, vkd3d := none } (componentTypeOf forkB) { version := vB, fork := forkB }), dlls := esB, installedAt := now3 } (bakName n)
      = writeManifest dB MB2 (bakName n) := by
    intro n hn
    rw [writeManifest, fwrite_ne _ _ (bakName_ne_manifestName n)]
    exact rframe (bakName n) (hfrBbak n hn)
  have hreadFin : readManifest (writeManifest (removeFiles (writeManifest dB MB2) esA)
      { MB2 with components := some (setComp { dxvk := none, vkd3d := none } (componentTypeOf forkB) { version := vB, fork := forkB }), dlls := esB, installedAt := now3 })
      = some { MB2 with components := some (setComp { dxvk := none, vkd3d := none } (componentTypeOf forkB) { version := vB, fork := forkB }), dlls := esB, installedAt := now3 } := readManifest_write _ _
  refine ⟨MB2, { MB2 with components := some (setComp { dxvk := none, vkd3d := none } (componentTypeOf forkB) { version := vB, fork := forkB }), dlls := esB, installedAt := now3 }, by rw [h2], ?_, ?_, ?_, ?_,
    ?_, ?_, ?_⟩
  · rw [h2]
    show (uninstallEngine (writeManifest dB MB2) (some (componentTypeOf forkA)) now3).2
      = true
    rw [hunin]
  · rw [h2]
    show readManifest (uninstallEngine (writeManifest dB MB2)
      (some (componentTypeOf forkA)) now3).1 = _
    rw [hunin]
    exact hreadFin
  · refine ⟨setComp { dxvk := none, vkd3d := none } (componentTypeOf forkB)
      { version := vB, fork := forkB },
      setComp (setComp { dxvk := none, vkd3d := none }
        (componentTypeOf forkA) { version := vA, fork := forkA }) (componentTypeOf forkB)
        { version := vB, fork := forkB }, rfl, rfl, ?_, ?_, ?_⟩
    · rw [getComp_setComp, getComp_setComp]
    · rw [getComp_setComp]
    · rw [getComp_setComp_ne _ hdiff, getComp_none]
  · show esB = MB2.dlls.filter (fun e => isTargetName (componentTypeOf forkB) e.name)
    rw [hm2dlls, List.filter_append]
    have hx1 : esA.filter (fun e => isTargetName (componentTypeOf forkB) e.name) = [] :=
      List.filter_eq_nil_iff.mpr (fun e he => by simp [hAnotB e he])
    have hx2 : esB.filter (fun e => isTargetName (componentTypeOf forkB) e.name) = esB :=
      List.filter_eq_self.mpr (fun a ha => hownB' a ha)
    rw [hx1, hx2, List.nil_append]
  · intro p hp
    rw [h2]
    show (uninstallEngine (writeManifest dB MB2) (some (componentTypeOf forkA)) now3).1 p.1
      = writeManifest dB MB2 p.1
    rw [hunin]
    exact hfiles p hp
  · intro n hn
    rw [h2]
    show (uninstallEngine (writeManifest dB MB2) (some (componentTypeOf forkA)) now3).1
      (bakName n) = writeManifest dB MB2 (bakName n)
    rw [hunin]
    exact hbaks n hn
  · rw [h2]
    show checkIntegrity (uninstallEngine (writeManifest dB MB2)
      (some (componentTypeOf forkA)) now3).1 (some (componentTypeOf forkB)) = .ok
    rw [hunin]
    show checkIntegrity (writeManifest (removeFiles (writeManifest dB MB2) esA)
      { MB2 with components := some (setComp { dxvk := none, vkd3d := none } (componentTypeOf forkB) { version := vB, fork := forkB }), dlls := esB, installedAt := now3 }) (some (componentTypeOf forkB)) = .ok
    rw [checkIntegrity_read_some _ { MB2 with components := some (setComp { dxvk := none, vkd3d := none } (componentTypeOf forkB) { version := vB, fork := forkB }), dlls := esB, installedAt := now3 } _ hreadFin]
    have htg : ({ MB2 with components := some (setComp { dxvk := none, vkd3d := none } (componentTypeOf forkB) { version := vB, fork := forkB }), dlls := esB, installedAt := now3 } : Manifest).dlls.filter
        (fun e => isTargetOpt (some (componentTypeOf forkB)) e.name) = esB := by
      show esB.filter (fun e => isTargetOpt (some (componentTypeOf forkB)) e.name) = esB
      exact List.filter_eq_self.mpr (fun a ha => hownB' a ha)
    show (if (some (componentTypeOf forkB)).isSome
        && (({ MB2 with components := some (setComp { dxvk := none, vkd3d := none } (componentTypeOf forkB) { version := vB, fork := forkB }), dlls := esB, installedAt := now3 } : Manifest).dlls.filter
          (fun e => isTargetOpt (some (componentTypeOf forkB)) e.name)).isEmpty
      then IntegrityStatus.not_installed
      else checkLoop _ (({ MB2 with components := some (setComp { dxvk := none, vkd3d := none } (componentTypeOf forkB) { version := vB, fork := forkB }), dlls := esB, installedAt := now3 } : Manifest).dlls.filter
        (fun e => isTargetOpt (some (componentTypeOf forkB)) e.name))) = .ok
    rw [htg]
    have hesBne : esB.isEmpty = false := by
      rw [hesB]
      cases pB with
      | nil => exact absurd rfl hneB
      | cons q r => rfl
    rw [if_neg (by simp [hesBne])]
    refine checkLoop_ok_of _ esB ?_
    intro e he
    obtain ⟨p, hp, rfl⟩ := List.mem_map.mp he
    refine ⟨p.2, ?_, rfl⟩
    show writeManifest (removeFiles (writeManifest dB MB2) esA)
      { MB2 with components := some (setComp { dxvk := none, vkd3d := none } (componentTypeOf forkB) { version := vB, fork := forkB }), dlls := esB, installedAt := now3 } p.1 = some p.2
    rw [hfiles p hp, writeManifest, fwrite_ne _ _
      (hasDllExt_ne_manifestName (hdllB p.1 (List.mem_map_of_mem Prod.fst hp)))]
    exact hmemB p hp

/-- C5 witness: the idempotence result evaluated at the concrete
scenario directory. -/
theorem reinstall_idempotent_app :
    ∃ m1, (installEngine exDir "g" .official "2.7" .a64
        [("foo.dll", exNew)] "t" none).2 = .ok m1 ∧
      installEngine (installEngine exDir "g" .official "2.7" .a64
          [("foo.dll", exNew)] "t" none).1 "g" .official "2.7" .a64
          [("foo.dll", exNew)] "t" none
        = ((installEngine exDir "g" .official "2.7" .a64
            [("foo.dll", exNew)] "t" none).1, .ok m1) :=
  reinstall_idempotent exDir "g" "2.7" "t" .official .a64 [("foo.dll", exNew)]
    (by decide) (by decide) (by decide)
    (by
      intro n hn
      rcases List.mem_cons.mp hn with rfl | h
      · exact ⟨"foo", rfl⟩
      · cases h)
    (by decide)

/-- C6 witness: DXVK (d3d11.dll) and VKD3D (d3d12.dll) installed into
the same directory; uninstalling DXVK leaves the VKD3D side intact. -/
theorem family_isolation_app :
    ∃ m2 mB,
      (installEngine (installEngine exDir "g" .official "2.7" .a64
        [("d3d11.dll", exNew)] "t1" none).1
        "g" .vkd3d "1.0" .a64 [("d3d12.dll", exStale)] "t2" none).2 = .ok m2 ∧
      (uninstallEngine (installEngine (installEngine exDir "g" .official "2.7" .a64
        [("d3d11.dll", exNew)] "t1" none).1
        "g" .vkd3d "1.0" .a64 [("d3d12.dll", exStale)] "t2" none).1
        (some (componentTypeOf .official)) "t3").2 = true ∧
      readManifest (uninstallEngine
        (installEngine (installEngine exDir "g" .official "2.7" .a64
          [("d3d11.dll", exNew)] "t1" none).1
          "g" .vkd3d "1.0" .a64 [("d3d12.dll", exStale)] "t2" none).1
        (some (componentTypeOf .official)) "t3").1 = some mB ∧
      (∃ cs cs2, mB.components = some cs ∧ m2.components = some cs2 ∧
        getComp cs (componentTypeOf .vkd3d) = getComp cs2 (componentTypeOf .vkd3d) ∧
        getComp cs (componentTypeOf .vkd3d) = some { version := "1.0", fork := .vkd3d } ∧
        getComp cs (componentTypeOf .official) = none) ∧
      mB.dlls = m2.dlls.filter (fun e => isTargetName (componentTypeOf .vkd3d) e.name) ∧
      (∀ p ∈ [("d3d12.dll", exStale)], (uninstallEngine
        (installEngine (installEngine exDir "g" .official "2.7" .a64
          [("d3d11.dll", exNew)] "t1" none).1
          "g" .vkd3d "1.0" .a64 [("d3d12.dll", exStale)] "t2" none).1
        (some (componentTypeOf .official)) "t3").1 p.1
        = (installEngine (installEngine exDir "g" .official "2.7" .a64
          [("d3d11.dll", exNew)] "t1" none).1
          "g" .vkd3d "1.0" .a64 [("d3d12.dll", exStale)] "t2" none).1 p.1) ∧
      (∀ n ∈ [("d3d12.dll", exStale)].map Prod.fst, (uninstallEngine
        (installEngine (installEngine exDir "g" .official "2.7" .a64
          [("d3d11.dll", exNew)] "t1" none).1
          "g" .vkd3d "1.0" .a64 [("d3d12.dll", exStale)] "t2" none).1
        (some (componentTypeOf .official)) "t3").1 (bakName n)
        = (installEngine (installEngine exDir "g" .official "2.7" .a64
          [("d3d11.dll", exNew)] "t1" none).1
          "g" .vkd3d "1.0" .a64 [("d3d12.dll", exStale)] "t2" none).1 (bakName n)) ∧
      checkIntegrity (uninstallEngine
        (installEngine (installEngine exDir "g" .official "2.7" .a64
          [("d3d11.dll", exNew)] "t1" none).1
          "g" .vkd3d "1.0" .a64 [("d3d12.dll", exStale)] "t2" none).1
        (some (componentTypeOf .official)) "t3").1
        (some (componentTypeOf .vkd3d)) = .ok :=
  family_isolation exDir "g" "2.7" "1.0" "t1" "t2" "t3" .official .vkd3d .a64 .a64
    [("d3d11.dll", exNew)] [("d3d12.dll", exStale)]
    (by decide) (by decide) (by decide) (by decide) (by decide) (by decide)
    (by
      intro n hn
      rcases List.mem_cons.mp hn with rfl | h
      · exact ⟨"d3d11", rfl⟩
      · cases h)
    (by
      intro n hn
      rcases List.mem_cons.mp hn with rfl | h
      · exact ⟨"d3d12", rfl⟩
      · cases h)
    (by decide) (by decide) (by decide) rfl
